import Mathlib

/-!
Verification of the change-batching and deduplication core of the
BadPractice agent (a filesystem watcher CLI in `src/cli/bp.py` posting
batches of changed files to a Flask backend in `src/backend/app.py`).

The Python code is shallowly embedded below.  Conventions:

* Timestamps (`time.time()` floats) are modelled as integers (`ℤ`):
  the code only ever subtracts and order-compares timestamps, so any
  linearly ordered abelian group is a faithful model, and `ℤ` keeps
  every definition kernel-computable.
* The SHA-256 hex digest (`_hash_txt` in the CLI, `_digest` in the
  backend — both `hashlib.sha256(s.encode("utf-8","ignore")).hexdigest()`)
  is modelled as an explicit function parameter `h : String → String`,
  the same parameter on both sides since both sides use the same
  primitive.  Claims that hold only "up to hash collision" take an
  injectivity hypothesis on `h`.
* Python dicts keyed by strings are association lists with
  insert-or-replace update (`dictSet`), preserving insertion order like
  Python dicts do; Python sets of paths are duplicate-free lists with
  membership insert (`insertStr`).
* File system content is an oracle `fs : String → Option FsEntry`
  (`none` = missing file / unreadable), and the outbound HTTP analysis
  call is a boolean outcome parameter, per the spec's treatment of
  these as external collaborators.
-/

/-- `str.lower()` (the code only ever lowercases ASCII names). -/
def lowerStr (s : String) : String := String.mk (s.data.map Char.toLower)

/-- `pre` is a prefix of `s` (Python `s.startswith(pre)`). -/
def startsW (s pre : String) : Bool := pre.data.isPrefixOf s.data

/-- `suf` is a suffix of `s` (Python `s.endswith(suf)`). -/
def endsW (s suf : String) : Bool := suf.data.reverse.isPrefixOf s.data.reverse

/-- Split a relative path on `'/'` (the list of `pathlib` parts). -/
def splitSlash (s : String) : List String :=
  (splitAux s.data []).map String.mk
where
  splitAux : List Char → List Char → List (List Char)
    | [], cur => [cur.reverse]
    | c :: rest, cur =>
      if c = '/' then cur.reverse :: splitAux rest [] else splitAux rest (c :: cur)

/-- Python `str.strip()` (whitespace trim, as applied to the email). -/
def trimStr (s : String) : String :=
  String.mk (((s.data.dropWhile isWs).reverse.dropWhile isWs).reverse)
where
  isWs (c : Char) : Bool := c = ' ' || c = '\t' || c = '\n' || c = '\r'

/-- A string containing no `'|'` character (the separator used by the
fingerprint seed composition). -/
def pipeFree (s : String) : Prop := '|' ∉ s.data

instance (s : String) : Decidable (pipeFree s) := by
  unfold pipeFree; infer_instance

/-- Python `sep.join(parts)`. -/
def joinSep (sep : String) : List String → String
  | [] => ""
  | [a] => a
  | a :: rest => a ++ sep ++ joinSep sep rest

/-- Python dict assignment `d[k] = v`: replaces the value in place if the
key is present (keeping its position), otherwise appends. -/
def dictSet {α : Type} (k : String) (v : α) (d : List (String × α)) : List (String × α) :=
  if d.any (fun e => e.1 == k) then d.map (fun e => if e.1 == k then (k, v) else e)
  else d ++ [(k, v)]

/-- Python set insertion `s.add(x)` on a duplicate-free list model. -/
def insertStr (x : String) (l : List String) : List String :=
  if l.contains x then l else l ++ [x]

/-- A file entry as carried in the JSON payloads:
`{"name": ..., "path": ..., "content": ...}`.  A missing key is
modelled as the empty string (Python's `d.get(k) or ...` treats a
missing key and an empty string alike). -/
structure FileEntry where
  path : String
  name : String
  content : String
deriving DecidableEq, Repr

/-- `f.get("path") or f.get("name") or ""` — the key under which a file
is fingerprinted. -/
def fkey (f : FileEntry) : String :=
  if f.path ≠ "" then f.path else f.name

/-- The sort key `(x.get("path") or x.get("name") or "").lower()` used by
both the client's `_batch_id` and the server's `_batch_fingerprint`. -/
def sortKey (f : FileEntry) : String := lowerStr (fkey f)

/-- `"{path}:{digest}"` — one seed component per file. -/
def filePart (h : String → String) (f : FileEntry) : String :=
  fkey f ++ ":" ++ h f.content

/-- Lexicographic (code-point) strict comparison of character lists — the
order Python uses to compare strings.  Defined by structural recursion so
that it kernel-reduces on concrete inputs. -/
def lexLtB : List Char → List Char → Bool
  | _, [] => false
  | [], _ :: _ => true
  | a :: as, b :: bs => if a < b then true else if b < a then false else lexLtB as bs

/-- A kernel-computable decision procedure for `≤` on `String` (the
library one is defined over byte iterators and does not reduce). -/
def strLeDec (a b : String) : Decidable (a ≤ b) :=
  decidable_of_iff (lexLtB b.data a.data = false) (by
    have key : ∀ x y : List Char, lexLtB x y = true ↔ List.Lex (· < ·) x y := by
      intro x
      induction x with
      | nil =>
        intro y
        cases y with
        | nil =>
          simp only [lexLtB]
          exact iff_of_false (by simp) (List.Lex.not_nil_right _ _)
        | cons c cs =>
          simp only [lexLtB]
          exact iff_of_true trivial List.Lex.nil
      | cons c cs ih =>
        intro y
        cases y with
        | nil =>
          simp only [lexLtB]
          exact iff_of_false (by simp) (List.Lex.not_nil_right _ _)
        | cons d ds =>
          simp only [lexLtB]
          by_cases hcd : c < d
          · simp only [hcd, if_true]
            exact iff_of_true trivial (List.Lex.rel hcd)
          · by_cases hdc : d < c
            · simp only [hcd, hdc, if_false, if_true]
              constructor
              · intro hc
                exact absurd hc (by simp)
              · intro hl
                cases hl with
                | rel hr => exact absurd hr hcd
                | cons ht => exact absurd hdc (lt_irrefl c)
            · have he : c = d := le_antisymm (not_lt.mp hdc) (not_lt.mp hcd)
              subst he
              simp only [hcd, if_false, lt_irrefl]
              rw [ih ds]
              constructor
              · intro hl
                exact List.Lex.cons hl
              · intro hl
                cases hl with
                | rel hr => exact absurd hr (lt_irrefl c)
                | cons ht => exact ht
    have hlt : lexLtB b.data a.data = true ↔ b < a := by
      rw [@String.lt_iff_toList_lt b a]
      exact key b.data a.data
    rw [Bool.eq_false_iff, Ne, hlt]
    exact not_lt)

/-- `sorted(files, key=lambda x: (x.get("path") or x.get("name") or "").lower())`
(Python's sort is stable; insertion sort with a total preorder is the
same stable sort). -/
def sortFiles (files : List FileEntry) : List FileEntry :=
  @List.insertionSort FileEntry (fun a b => sortKey a ≤ sortKey b)
    (fun a b => strLeDec (sortKey a) (sortKey b)) files

/-- Python `sorted` on a list of strings. -/
def sortStrings (l : List String) : List String :=
  @List.insertionSort String (fun a b => a ≤ b) (fun a b => strLeDec a b) l

/-- `_batch_id(files, reason)` from `src/cli/bp.py`:
`seed = reason + "|" + "|".join(f"{path}:{digest}" for sorted files)`,
then digested. -/
def batch_id (h : String → String) (files : List FileEntry) (reason : String) : String :=
  h (reason ++ "|" ++ joinSep "|" ((sortFiles files).map (filePart h)))

/-- The JSON body of a `/api/analyze_batch` request.  `repo_hints` is
also sent but is never read by the deduplication core, so it is not
modelled. -/
structure Payload where
  email : String
  files : List FileEntry
  notify_reason : String
  created_paths : List String
  repo_id : String
  batch_id : String
deriving DecidableEq, Repr

/-- The payload built by `_post_batch` in `src/cli/bp.py`.  Note that the
client sends no `repo_id` key, so the server reads it as `""`. -/
def clientPayload (email : String) (files : List FileEntry) (reason : String)
    (created_paths : List String) (bid : String) : Payload :=
  { email := email, files := files, notify_reason := reason,
    created_paths := created_paths, repo_id := "", batch_id := bid }

/-- `_batch_fingerprint(payload)` from `src/backend/app.py`:
`"|".join([repo_id, notify_reason] + sorted(created_paths) +
["{path}:{digest}" for sorted files])`, then digested. -/
def batch_fingerprint (h : String → String) (p : Payload) : String :=
  h (joinSep "|" ([p.repo_id, p.notify_reason] ++ sortStrings p.created_paths
      ++ (sortFiles p.files).map (filePart h)))

/-! ## Scope filter (`_ignore_name`, `_in_scope`) and materialization -/

/-- `MAX_BYTES_PER_FILE = 400_000`. -/
def MAX_BYTES_PER_FILE : Nat := 400000

/-- `MAX_FILES_PER_BATCH = 200`. -/
def MAX_FILES_PER_BATCH : Nat := 200

/-- `EXCLUDE_DIRS_DEFAULT` from `src/cli/bp.py`. -/
def EXCLUDE_DIRS_DEFAULT : List String :=
  [".git", "node_modules", "build", "dist", ".next", ".cache",
   ".venv", "venv", "__pycache__", ".idea", ".vscode",
   "coverage", ".pytest_cache", "frontend/build", "bp_files"]

/-- `INCLUDE_EXT_DEFAULT` from `src/cli/bp.py`. -/
def INCLUDE_EXT_DEFAULT : List String :=
  [".tf", ".tfvars", ".hcl", ".yaml", ".yml", ".json", ".dockerfile"]

/-- `INCLUDE_NAMES_DEFAULT` from `src/cli/bp.py`. -/
def INCLUDE_NAMES_DEFAULT : List String :=
  ["dockerfile", "jenkinsfile",
   "docker-compose.yml", "docker-compose.yaml",
   "compose.yml", "compose.yaml",
   "chart.yaml", "kustomization.yaml", "values.yaml"]

/-- The final component of a relative path (`pathlib.Path(...).name`). -/
def pathBasename (rel : String) : String :=
  (splitSlash rel).getLastD ""

/-- `pathlib.Path(...).suffix` on a file name: `name[i:]` for the last
`'.'` at index `i` with `0 < i < len(name) - 1`, else `""`. -/
def pathSuffix (name : String) : String :=
  let cs := name.data
  let j := cs.reverse.indexOf '.'
  if j ≥ cs.length then ""
  else
    let i := cs.length - 1 - j
    if 0 < i ∧ i < cs.length - 1 then String.mk (cs.drop i) else ""

/-- `_ignore_name(name)`: whether any of `IGNORE_BASENAME_REGEXES`
(`^\.?#.*#$`, `^~\$.*`, `.*\.swp$`, `.*\.swx$`, `.*\.tmp$`, `.*\.temp$`,
`.*~$`) matches the (already lowercased) basename. -/
def ignore_name (n : String) : Bool :=
  ((startsW n "#" || startsW n ".#") && endsW n "#"
    && n.length ≥ (if startsW n ".#" then 3 else 2))
  || startsW n "~$" || endsW n ".swp" || endsW n ".swx"
  || endsW n ".tmp" || endsW n ".temp" || endsW n "~"

/-- `_in_scope(p, include_ext, include_names)`:
`n = p.name.lower(); (not _ignore_name(n)) and (n in include_names or
p.suffix.lower() in include_ext)`.  Only the basename and suffix of the
path are consulted, so passing the relative path is equivalent to the
absolute one. -/
def in_scope (rel : String) (include_ext include_names : List String) : Bool :=
  let n := lowerStr (pathBasename rel)
  !ignore_name n && (include_names.contains n
    || include_ext.contains (lowerStr (pathSuffix (pathBasename rel))))

/-- Result of `stat` + `read_text` on one path: size in bytes and the
decoded text content. -/
structure FsEntry where
  size : Nat
  content : String
deriving DecidableEq, Repr

/-- `any(part in exclude_dirs for part in p.relative_to(root).parts[:-1])`
— does any non-final segment of the relative path belong to the
excluded-directory set? -/
def hasExcludedDir (exclude_dirs : List String) (rel : String) : Bool :=
  ((splitSlash rel).dropLast).any (fun seg => exclude_dirs.contains seg)

/-- `_collect_specific(root, paths, include_ext, include_names,
exclude_dirs)` from `src/cli/bp.py`: iterate `sorted(paths)`; skip a
path whose non-final segments hit `exclude_dirs`, that does not exist
(`fs rel = none`), that is out of scope, or that is oversize; read the
rest; stop at `MAX_FILES_PER_BATCH`.  Path normalization
(`resolve().relative_to(root)`) is assumed to succeed: paths are
root-relative strings throughout. -/
def collect_specific (fs : String → Option FsEntry)
    (include_ext include_names exclude_dirs : List String)
    (paths : List String) : List FileEntry :=
  ((sortStrings paths).filterMap (fun rel =>
    if hasExcludedDir exclude_dirs rel then none
    else match fs rel with
      | none => none
      | some e =>
        if !in_scope rel include_ext include_names then none
        else if e.size > MAX_BYTES_PER_FILE then none
        else some ⟨rel, pathBasename rel, e.content⟩)).take MAX_FILES_PER_BATCH

/-! ## Client watcher state and the dispatch loop (`watch` in `src/cli/bp.py`) -/

/-- The in-memory state of one watch session: the persisted stores
(`file_seen`, `last_notify`, `recent_batch_ids`) plus the transient
pending set (`pending_paths`, `pending_created`, `last_event_ts`). -/
structure ClientState where
  file_seen : List String
  last_notify : List (String × ℤ × String)
  recent_batch_ids : List (ℤ × String)
  pending_paths : List String
  pending_created : List String
  last_event_ts : ℤ
deriving DecidableEq, Repr

/-- The initial state of a fresh watch session with no persisted history
(`{"last_run": 0, "file_seen": {}, "last_notify": {}, "recent_batch_ids": []}`,
`pending_paths = set()`, `last_event_ts = 0.0`). -/
def initState : ClientState := ⟨[], [], [], [], [], 0⟩

/-- A dispatched batch: the arguments of the `_post_batch` call made by
`_maybe_send`. -/
structure Batch where
  files : List FileEntry
  reason : String
  created_paths : List String
  bid : String
deriving DecidableEq, Repr

/-- `_evict(now)`: pop entries from the front of `recent_batch_ids`
while `now - ts > INPUT_DEDUPE_TTL`. -/
def evictRecent (ttl now : ℤ) (rb : List (ℤ × String)) : List (ℤ × String) :=
  rb.dropWhile (fun e => decide (now - e.1 > ttl))

/-- `_already(bid, now)` after its internal eviction: membership test. -/
def alreadySent (bid : String) (rb : List (ℤ × String)) : Bool :=
  rb.any (fun e => e.2 == bid)

/-- The per-file cooldown filter of `_maybe_send` (lines 351-357 of
`src/cli/bp.py`): a file is kept unless `last_notify` holds an entry for
its path whose timestamp is less than `FILE_COOLDOWN_SEC` old and whose
digest equals the digest of the current content. -/
def cooldown_keep (h : String → String) (cooldown now : ℤ)
    (last_notify : List (String × ℤ × String)) (f : FileEntry) : Bool :=
  match last_notify.lookup f.path with
  | some (ts, dg) => !(decide (now - ts < cooldown) && (dg == h f.content))
  | none => true

/-- The created-path classification of `_maybe_send`: among the files
that passed the cooldown filter, those whose path is in
`pending_created` and not in `file_seen`. -/
def created_of (pending_created file_seen : List String)
    (files_to_send : List FileEntry) : List String :=
  files_to_send.filterMap (fun f =>
    if pending_created.contains f.path && !file_seen.contains f.path
    then some f.path else none)

/-- Clear `pending_paths` and `pending_created` (the `finally` clause
and the early-return branches of `_maybe_send`). -/
def clearPend (st : ClientState) : ClientState :=
  { st with pending_paths := [], pending_created := [] }

/-- `_maybe_send()` from `src/cli/bp.py` (lines 341-379), one tick of the
dispatch loop at time `now`.  `postOk` is the outcome of the external
`_post_batch` HTTP call (`false` = the call raised).  Returns the new
state and the batch passed to `_post_batch`, if any.  The `repo_hints`
recomputation is not modelled (it only feeds the analysis prompt). -/
def maybe_send (h : String → String) (debounce cooldown ttl : ℤ)
    (fs : String → Option FsEntry) (include_ext include_names exclude_dirs : List String)
    (postOk : Bool) (st : ClientState) (now : ℤ) : ClientState × Option Batch :=
  if st.pending_paths.isEmpty then (st, none)
  else if now - st.last_event_ts < debounce then (st, none)
  else
    let files_all := collect_specific fs include_ext include_names exclude_dirs st.pending_paths
    if files_all.isEmpty then (clearPend st, none)
    else
      let files_to_send := files_all.filter (cooldown_keep h cooldown now st.last_notify)
      let created_paths := created_of st.pending_created st.file_seen files_to_send
      if files_to_send.isEmpty then (clearPend st, none)
      else
        let reason := if created_paths.isEmpty then "modified" else "created"
        let bid := batch_id h files_to_send reason
        let rb1 := evictRecent ttl now st.recent_batch_ids
        if alreadySent bid rb1 then
          (clearPend { st with recent_batch_ids := rb1 }, none)
        else
          let file_seen' := files_to_send.foldl (fun acc f => insertStr f.path acc) st.file_seen
          let b : Batch := ⟨files_to_send, reason, created_paths, bid⟩
          if postOk then
            let last_notify' := files_to_send.foldl
              (fun acc f => dictSet f.path (now, h f.content) acc) st.last_notify
            let rb2 := evictRecent ttl now (rb1 ++ [(now, bid)])
            (clearPend { st with
                          file_seen := file_seen'
                          last_notify := last_notify'
                          recent_batch_ids := rb2 }, some b)
          else
            (clearPend { st with file_seen := file_seen', recent_batch_ids := rb1 }, some b)

/-- `H._q(e, created)` from `src/cli/bp.py` (lines 384-393): handle one
filesystem event.  `rel` is the normalized root-relative path (events
whose normalization fails are dropped before this point and directory
events are rejected by the `is_directory` guard, modelled by the caller
simply not invoking `onEvent`).  Note: the handler checks `_in_scope`
but performs no excluded-directory check. -/
def onEvent (include_ext include_names : List String) (st : ClientState)
    (rel : String) (created : Bool) (now : ℤ) : ClientState :=
  if !in_scope rel include_ext include_names then st
  else
    { st with
      pending_paths := insertStr rel st.pending_paths,
      pending_created := if created then insertStr rel st.pending_created
                         else st.pending_created,
      last_event_ts := now }

/-- One action of the watch session: a filesystem event delivered to
`H._q`, or one iteration of the `while True: sleep(1); _maybe_send()`
loop. -/
inductive Act where
  | ev (rel : String) (created : Bool) (t : ℤ)
  | tick (t : ℤ)
deriving DecidableEq, Repr

/-- Execute one action. -/
def stepA (h : String → String) (debounce cooldown ttl : ℤ)
    (fs : String → Option FsEntry) (include_ext include_names exclude_dirs : List String)
    (postOk : Bool) (st : ClientState) : Act → ClientState × Option Batch
  | .ev rel created t => (onEvent include_ext include_names st rel created t, none)
  | .tick t => maybe_send h debounce cooldown ttl fs include_ext include_names
      exclude_dirs postOk st t

/-- Execute a sequence of actions, collecting every dispatched batch. -/
def runActs (h : String → String) (debounce cooldown ttl : ℤ)
    (fs : String → Option FsEntry) (include_ext include_names exclude_dirs : List String)
    (postOk : Bool) (st : ClientState) : List Act → ClientState × List Batch
  | [] => (st, [])
  | a :: as =>
    let r := stepA h debounce cooldown ttl fs include_ext include_names exclude_dirs postOk st a
    let rest := runActs h debounce cooldown ttl fs include_ext include_names exclude_dirs
      postOk r.1 as
    (rest.1, r.2.toList ++ rest.2)

/-! ## Server (`src/backend/app.py`) -/

/-- The module-level mutable state of the Flask app: `RECENT_BATCH`
(fingerprint → timestamp) and `EMAIL_STATE` (email → (ts, digest)). -/
structure ServerState where
  recent_batch : List (String × ℤ)
  email_state : List (String × ℤ × String)
deriving DecidableEq, Repr

/-- The lazy TTL pruning at the top of `analyze_batch`: delete every
entry with `now - ts > BATCH_TTL`. -/
def pruneRecent (ttl now : ℤ) (rb : List (String × ℤ)) : List (String × ℤ) :=
  rb.filter (fun kv => !decide (now - kv.2 > ttl))

/-- The server-side dedup step of `analyze_batch` (lines 198-205):
recompute the fingerprint, prune, and either answer "duplicate"
(`true`) or record the fingerprint immediately — before any analysis
call. -/
def dedup_phase (h : String → String) (ttl : ℤ) (st : ServerState)
    (p : Payload) (now : ℤ) : ServerState × Bool :=
  let fp := batch_fingerprint h p
  let rb := pruneRecent ttl now st.recent_batch
  if (rb.lookup fp).isSome then ({ st with recent_batch := rb }, true)
  else ({ st with recent_batch := rb ++ [(fp, now)] }, false)

/-- `_should_send(email, body)` from `src/backend/app.py` (lines 38-46):
compare the digest of the **body** against the last digest sent to this
recipient; suppress if identical and less than `EMAIL_MIN_INTERVAL` old,
else record `(now, digest)` and allow. -/
def should_send (h : String → String) (minInterval now : ℤ)
    (es : List (String × ℤ × String)) (email body : String) :
    Bool × List (String × ℤ × String) :=
  let dg := h body
  match es.lookup email with
  | some (ts, d) =>
    if d == dg && decide (now - ts < minInterval) then (false, es)
    else (true, dictSet email (now, dg) es)
  | none => (true, dictSet email (now, dg) es)

/-- Modelled from the spec: the per-recipient suppression as the spec
states it — "a digest of the outgoing subject+body is compared against
the last digest sent to that recipient" (§4.5) — i.e. the same state
machine as `should_send` but digesting `subject ++ body`. -/
def should_send_spec (h : String → String) (minInterval now : ℤ)
    (es : List (String × ℤ × String)) (email subject body : String) :
    Bool × List (String × ℤ × String) :=
  let dg := h (subject ++ body)
  match es.lookup email with
  | some (ts, d) =>
    if d == dg && decide (now - ts < minInterval) then (false, es)
    else (true, dictSet email (now, dg) es)
  | none => (true, dictSet email (now, dg) es)

/-- Substring test (Python `needle in haystack`). -/
def strContains (hay needle : String) : Bool :=
  infixOf needle.data hay.data
where
  infixOf : List Char → List Char → Bool
    | needle, [] => needle.isEmpty
    | needle, c :: t => needle.isPrefixOf (c :: t) || infixOf needle t

/-- `guess_domain(name, content)` from `src/backend/app.py`. -/
def guess_domain (name content : String) : String :=
  let n := lowerStr name
  if endsW n ".tf" || strContains (lowerStr content) "terraform" then "Terraform"
  else if n == "dockerfile" || endsW n ".dockerfile" then "Docker"
  else if n == "jenkinsfile" || strContains (lowerStr content) "pipeline" then "Jenkins"
  else if endsW n ".yml" || endsW n ".yaml" then
    (if strContains content "argoproj.io" then "ArgoCD" else "Kubernetes")
  else "General"

/-- `ai_scan(domain, filename, content)` from `src/backend/app.py`
(lines 96-141).  The external LLM call `llm_chat` is the oracle `llm`
(`none` = the call raised an exception, in which case the function
returns `[]`); the post-processing of a successful reply (bullet
stripping, preamble dropping, "No issues" detection, dedup, cap at 50)
is the collaborator-supplied pure function `clean`, since no claim
depends on its content. -/
def ai_scan (llm : String → String → String → Option String)
    (clean : String → List String) (domain filename content : String) : List String :=
  match llm domain filename content with
  | none => []
  | some txt => clean txt

/-- The display name of a file in `analyze_batch`:
`f.get("path") or f.get("name") or "unknown"`. -/
def fileDisplayName (f : FileEntry) : String :=
  if f.path ≠ "" then f.path else if f.name ≠ "" then f.name else "unknown"

/-- `_format_email(email, reason, created_paths, results)` from
`src/backend/app.py` (lines 155-182).  `ts` is the `_now_iso()`
wall-clock string.  Returns `(subject, body)`. -/
def format_email (reason : String) (created_paths : List String)
    (results : List (String × List String)) (ts : String) : String × String :=
  let total := (results.map (fun kv => kv.2.length)).sum
  let files_with := (results.filter (fun kv => !kv.2.isEmpty)).map (fun kv => kv.1)
  let subject_intro :=
    if reason == "initial" then
      ("[BadPractice Agent] Repository audit — " ++ toString total ++ " issue(s) noted",
       "BadPractice Report  •  " ++ ts ++ "\n\n")
    else if !created_paths.isEmpty then
      let fn := created_paths.headD ((results.map (fun kv => kv.1)).headD "")
      ("[BadPractice Agent] New file flagged — " ++ fn ++ " (" ++ toString total
         ++ " issue(s))",
       "A newly created file was flagged. Timestamp: " ++ ts ++ "\n\n")
    else
      ("[BadPractice Agent] File update flagged — " ++ toString total ++ " issue(s)",
       "A change introduced issues. Timestamp: " ++ ts ++ "\n\n")
  let per := results.foldl (fun acc kv =>
    if kv.2.isEmpty then acc
    else acc ++ ["▶ " ++ kv.1 ++ "  —  " ++ toString kv.2.length ++ " issue(s)",
                 String.mk (List.replicate 38 '-')]
      ++ (kv.2.enum.map (fun iw => toString (iw.1 + 1) ++ ". " ++ iw.2))
      ++ [""]) []
  let lines := [subject_intro.2,
      "Issues: " ++ toString total ++ "   Files affected: "
        ++ toString files_with.length ++ "\n"]
    ++ per
    ++ ["Automated by BadPractice Agent. Reply to this email if you need help triaging.\n"]
  (subject_intro.1, joinSep "\n" lines)

/-- The JSON answer of `/api/analyze_batch`.  `deduped` and `suppressed`
are the flags of the two short-circuit answers (absent, i.e. `false` /
`none`, on the full path); `results`/`dedupe_fp` are only present on the
full path. -/
structure BatchResponse where
  files_analyzed : Nat
  issues_found : Nat
  email_sent : Bool
  deduped : Bool
  suppressed : Option String
  results : Option (List (String × List String))
  dedupe_fp : Option String
deriving DecidableEq, Repr

/-- The observable outcome of one `analyze_batch` request: the new
server state, the JSON response, the number of `ai_scan` calls made and
the number of `send_email` attempts. -/
structure AnalyzeOutcome where
  state : ServerState
  resp : BatchResponse
  aiCalls : Nat
  sendAttempts : Nat
deriving DecidableEq, Repr

/-- `analyze_batch()` from `src/backend/app.py` (lines 189-239), one
request at time `now`.  Parameters: `allowMulti` is
`ALLOW_MULTI_MOD_EMAILS`, `ttl` is `BATCH_TTL`, `minInterval` is
`EMAIL_MIN_INTERVAL`, `llm`/`clean` parametrize `ai_scan`, `smtpOk` is
the outcome of the external `send_email` call, `tsIso` is `_now_iso()`. -/
def analyze_batch (h : String → String) (allowMulti : Bool) (ttl minInterval : ℤ)
    (llm : String → String → String → Option String) (clean : String → List String)
    (smtpOk : Bool) (tsIso : String) (st : ServerState) (p : Payload)
    (now : ℤ) : AnalyzeOutcome :=
  let email := trimStr p.email
  let files := p.files
  let reason := if p.notify_reason == "" then "initial" else p.notify_reason
  let created_paths := p.created_paths
  let dp := dedup_phase h ttl st p now
  if dp.2 then
    ⟨dp.1, ⟨files.length, 0, false, true, none, none, none⟩, 0, 0⟩
  else if !allowMulti && reason == "modified" && created_paths.isEmpty
      && decide (files.length > 1) then
    ⟨dp.1, ⟨files.length, 0, false, false, some "multi-file-modified", none, none⟩, 0, 0⟩
  else
    let fp := batch_fingerprint h p
    let perFile := files.map (fun f =>
      let nm := fileDisplayName f
      (nm, ai_scan llm clean (guess_domain nm f.content) nm f.content))
    let results := perFile.foldl (fun d kv => dictSet kv.1 kv.2 d) []
    let total := (perFile.map (fun kv => kv.2.length)).sum
    if email ≠ "" ∧ total > 0 then
      let body := (format_email reason created_paths results tsIso).2
      let ss := should_send h minInterval now dp.1.email_state email body
      if ss.1 then
        ⟨⟨dp.1.recent_batch, ss.2⟩,
         ⟨files.length, total, smtpOk, false, none, some results, some fp⟩,
         files.length, 1⟩
      else
        ⟨⟨dp.1.recent_batch, ss.2⟩,
         ⟨files.length, total, false, false, none, some results, some fp⟩,
         files.length, 0⟩
    else
      ⟨dp.1, ⟨files.length, total, false, false, none, some results, some fp⟩,
       files.length, 0⟩

/-! ## Concrete scenarios and trace definitions used by the theorems below -/

/-- A two-file filesystem for the C1 scenario: `a.tf` (newly created)
and `b.tf` (modified), both in scope. -/
def fsC1 : String → Option FsEntry := fun r =>
  if r = "a.tf" then some ⟨1, "A"⟩ else if r = "b.tf" then some ⟨1, "B"⟩ else none

/-- Client state for the C1 scenario: both paths pending, only `a.tf`
marked created, quiet period elapsed by the time of the tick. -/
def stC1 : ClientState := ⟨[], [], [], ["a.tf", "b.tf"], ["a.tf"], 0⟩

/-- Payload for the C7 witness scenario: one modified file that the
oracle flags with one issue. -/
def pC7 : Payload :=
  { email := "u", files := [⟨"a.tf", "a.tf", "X"⟩], notify_reason := "modified",
    created_paths := [], repo_id := "", batch_id := "b" }

/-- Server state for the C7 witness: the previous email to `"u"` had
exactly the body this request will render, recorded at time 0. -/
def stC7 : ServerState :=
  ⟨[], [("u", ((0 : ℤ), (format_email "modified" [] [("a.tf", ["bad"])] "TS").2))]⟩

/-- An empty server-side dedup/email state. -/
def stS0 : ServerState := ⟨[], []⟩

/-- Concrete payload for the C3 witness. -/
def pC3 : Payload := clientPayload "u" [⟨"a.tf", "a.tf", "X"⟩] "modified" [] "b"

/-- Concrete payload for the C10 witness: two modified files, no
created paths. -/
def pC10 : Payload :=
  clientPayload "u" [⟨"a.tf", "a.tf", "X"⟩, ⟨"b.tf", "b.tf", "Y"⟩] "modified" [] "b"

/-- Concrete payload for the C9 witness: one file whose LLM call fails. -/
def pC9 : Payload := clientPayload "u" [⟨"c.tf", "c.tf", "Z"⟩] "created" ["c.tf"] "b"

/-- The shape of a "rapid burst" on path `p`: every event is a modify
event on `p` arriving less than `deb` after the previous event, and
every interleaved poll tick also falls inside the window of the last
event (`le?` carries the time of the last event seen so far, `none`
before the first). -/
def burstOk (p : String) (deb : ℤ) : Option ℤ → List Act → Bool
  | _, [] => true
  | le?, Act.ev q c t :: rest =>
      (q == p) && !c && (match le? with
        | some l => decide (t - l < deb)
        | none => true) && burstOk p deb (some t) rest
  | le?, Act.tick t :: rest =>
      (match le? with
        | some l => decide (t - l < deb)
        | none => true) && burstOk p deb le? rest

/-- The time of the last event in a trace (accumulator style). -/
def lastEv : Option ℤ → List Act → Option ℤ
  | le?, [] => le?
  | _, Act.ev _ _ t :: rest => lastEv (some t) rest
  | le?, Act.tick _ :: rest => lastEv le? rest

/-- The watcher state during a fresh-session burst on `p`: initial
stores, pending set `{p}` once an event has arrived, clock at the last
event. -/
def burstState (p : String) : Option ℤ → ClientState
  | none => initState
  | some t => { initState with pending_paths := [p], last_event_ts := t }

/-- A trace consisting only of poll ticks. -/
def ticksOnly : List Act → Bool
  | [] => true
  | Act.tick _ :: rest => ticksOnly rest
  | Act.ev _ _ _ :: _ => false

/-- Single-file filesystem for the C4 witness. -/
def fsC4 : String → Option FsEntry := fun r =>
  if r = "a.tf" then some ⟨1, "X"⟩ else none

/-- State for the C4 part-(a) witness: one pending path, last event at 0. -/
def stC4 : ClientState := ⟨[], [], [], ["a.tf"], [], 0⟩

/-- Payloads for the C6 counterexample and witness. -/
def pC6a : Payload :=
  { email := "u", files := [⟨"A", "A", "1"⟩, ⟨"a", "a", "2"⟩], notify_reason := "modified",
    created_paths := [], repo_id := "r", batch_id := "b" }

def pC6b : Payload :=
  { email := "u", files := [⟨"a", "a", "2"⟩, ⟨"A", "A", "1"⟩], notify_reason := "modified",
    created_paths := [], repo_id := "r", batch_id := "b" }

def pC6c : Payload :=
  { email := "u", files := [⟨"a.tf", "a.tf", "1"⟩], notify_reason := "created",
    created_paths := ["x|y"], repo_id := "r", batch_id := "b" }

def pC6d : Payload :=
  { email := "u", files := [⟨"a.tf", "a.tf", "1"⟩], notify_reason := "created",
    created_paths := ["x", "y"], repo_id := "r", batch_id := "b" }

def pC6e : Payload :=
  { email := "u", files := [⟨"a.tf", "a.tf", "1"⟩, ⟨"b.tf", "b.tf", "2"⟩],
    notify_reason := "modified", created_paths := [], repo_id := "r", batch_id := "b" }

def pC6f : Payload :=
  { email := "u", files := [⟨"b.tf", "b.tf", "2"⟩, ⟨"a.tf", "a.tf", "1"⟩],
    notify_reason := "modified", created_paths := [], repo_id := "r", batch_id := "b" }

/-! ## General lemmas -/

theorem joinSep_cons (s a : String) {rest : List String} (hr : rest ≠ []) :
    joinSep s (a :: rest) = a ++ s ++ joinSep s rest := by
  cases rest with
  | nil => exact absurd rfl hr
  | cons b t => rfl

theorem length_joinSep_append_ge (s : String) (l M : List String) (hM : M ≠ []) :
    (joinSep s M).length ≤ (joinSep s (l ++ M)).length := by
  induction l with
  | nil => simp
  | cons a t ih =>
    have ht : t ++ M ≠ [] := by
      intro hc
      exact hM (List.append_eq_nil.mp hc).2
    rw [List.cons_append, joinSep_cons s a ht]
    simp only [String.length_append]
    omega


theorem lookup_eq_none_iff {α : Type} (l : List (String × α)) (k : String) :
    l.lookup k = none ↔ ∀ e ∈ l, e.1 ≠ k := by
  induction l with
  | nil => simp
  | cons e t ih =>
    obtain ⟨a, b⟩ := e
    cases hke : (k == a) with
    | true =>
      have hak : a = k := (eq_of_beq hke).symm
      constructor
      · intro hl
        simp only [List.lookup, hke] at hl
        exact absurd hl (by simp)
      · intro hall
        exact absurd hak (hall (a, b) (List.mem_cons_self _ _))
    | false =>
      have hak : a ≠ k := fun hc => by
        rw [hc] at hke
        simp at hke
      constructor
      · intro hl f hf
        rcases List.mem_cons.mp hf with hf | hf
        · rw [hf]; exact hak
        · simp only [List.lookup, hke] at hl
          exact (ih.mp hl) f hf
      · intro hall
        simp only [List.lookup, hke]
        exact ih.mpr (fun f hf => hall f (List.mem_cons_of_mem _ hf))

theorem lookup_append_of_none {α : Type} (A B : List (String × α)) (k : String)
    (hA : A.lookup k = none) : (A ++ B).lookup k = B.lookup k := by
  induction A with
  | nil => rfl
  | cons e t ih =>
    obtain ⟨a, b⟩ := e
    cases hke : (k == a) with
    | true =>
      simp only [List.lookup, hke] at hA
      exact absurd hA (by simp)
    | false =>
      simp only [List.lookup, hke] at hA
      simp only [List.cons_append, List.lookup, hke]
      exact ih hA

/-! ## C5: the cooldown filter -/

theorem cooldown_keep_eq_false_iff (h : String → String) (cooldown now : ℤ)
    (ln : List (String × ℤ × String)) (f : FileEntry) :
    cooldown_keep h cooldown now ln f = false ↔
      ∃ ts dg, ln.lookup f.path = some (ts, dg) ∧ dg = h f.content ∧ now - ts < cooldown := by
  unfold cooldown_keep
  cases hl : ln.lookup f.path with
  | none => simp
  | some v =>
    obtain ⟨ts, dg⟩ := v
    constructor
    · intro hb
      have hb' : now - ts < cooldown ∧ dg = h f.content := by
        simpa [Bool.not_eq_false', Bool.and_eq_true, decide_eq_true_iff,
          beq_iff_eq] using hb
      exact ⟨ts, dg, rfl, hb'.2, hb'.1⟩
    · rintro ⟨ts', dg', heq, hdg, hts⟩
      have h1 : ts = ts' ∧ dg = dg' := by
        have := heq
        injection this with h2
        exact ⟨congrArg Prod.fst h2, congrArg Prod.snd h2⟩
      rw [h1.1, h1.2]
      simp [Bool.not_eq_false', Bool.and_eq_true, decide_eq_true_iff,
        beq_iff_eq, hdg, hts]

/-- C5 — confirmed.  During materialization a candidate file `f`
(member of `files_all`, with current digest `h f.content`) is excluded
from `files_to_send` if and only if `last_notify` (the persisted
seen-store) holds an entry for `f.path` whose digest equals the current
digest and whose timestamp is less than `FILE_COOLDOWN_SEC` old; if the
digest differs or at least the cooldown has elapsed, it is kept.  This
is the filter `_maybe_send` applies (lines 351-357 of `src/cli/bp.py`,
embedded as `cooldown_keep` and used by `maybe_send`). -/
theorem c5_cooldown_suppression (h : String → String) (cooldown now : ℤ)
    (ln : List (String × ℤ × String)) (files_all : List FileEntry) (f : FileEntry) :
    (f ∈ files_all ∧ f ∉ files_all.filter (cooldown_keep h cooldown now ln)) ↔
      (f ∈ files_all ∧ ∃ ts dg, ln.lookup f.path = some (ts, dg) ∧
        dg = h f.content ∧ now - ts < cooldown) := by
  constructor
  · rintro ⟨hmem, hnot⟩
    refine ⟨hmem, (cooldown_keep_eq_false_iff h cooldown now ln f).mp ?_⟩
    cases hk : cooldown_keep h cooldown now ln f with
    | false => rfl
    | true => exact absurd (List.mem_filter.mpr ⟨hmem, hk⟩) hnot
  · rintro ⟨hmem, hex⟩
    refine ⟨hmem, fun hc => ?_⟩
    have hf := (cooldown_keep_eq_false_iff h cooldown now ln f).mpr hex
    rw [(List.mem_filter.mp hc).2] at hf
    exact Bool.true_eq_false.mp hf

/-! ## C1: created vs. modified paths in one cycle -/

theorem sortFiles_perm (files : List FileEntry) : List.Perm (sortFiles files) files :=
  @List.perm_insertionSort FileEntry (fun a b => sortKey a ≤ sortKey b)
    (fun a b => strLeDec (sortKey a) (sortKey b)) files

theorem sortStrings_perm (l : List String) : List.Perm (sortStrings l) l :=
  @List.perm_insertionSort String (fun a b => a ≤ b) (fun a b => strLeDec a b) l

/-- C1 — counterexample.  In a cycle whose snapshot holds the created
path `a.tf` and the modified path `b.tf`, `_maybe_send` dispatches ONE
batch with reason `created` containing BOTH files: created files are not
split into single-file batches and modified paths are not deferred, so
the claim "each created file as its own single-file batch … defer every
modified path" is false on the code. -/
theorem c1_counterexample :
    ((maybe_send id 10 300 180 fsC1 INCLUDE_EXT_DEFAULT INCLUDE_NAMES_DEFAULT
        EXCLUDE_DIRS_DEFAULT true stC1 100).2.map
      (fun b => (b.reason, b.files.map (fun f => f.path)))) =
    some ("created", ["a.tf", "b.tf"]) ∧
    (maybe_send id 10 300 180 fsC1 INCLUDE_EXT_DEFAULT INCLUDE_NAMES_DEFAULT
        EXCLUDE_DIRS_DEFAULT true stC1 100).1.pending_paths = [] := by
  exact ⟨rfl, rfl⟩

/-- C1 — amended.  When the quiet period has elapsed and the filtered
candidate set is non-empty, if at least one candidate is a
never-before-seen created path then `_maybe_send` dispatches a single
batch with reason `created` whose files are ALL filtered candidates
(created and modified alike), and clears the pending sets — modified
paths are dispatched in the same cycle, not deferred. -/
theorem c1_theorem (h : String → String) (debounce cooldown ttl : ℤ)
    (fs : String → Option FsEntry) (ie inm ex : List String) (postOk : Bool)
    (st : ClientState) (now : ℤ)
    (files_all files_to_send : List FileEntry) (created_paths : List String)
    (hpend : st.pending_paths.isEmpty = false)
    (hq : ¬ (now - st.last_event_ts < debounce))
    (hfa : collect_specific fs ie inm ex st.pending_paths = files_all)
    (hfts : files_all.filter (cooldown_keep h cooldown now st.last_notify) = files_to_send)
    (hne : files_to_send.isEmpty = false)
    (hcp : created_of st.pending_created st.file_seen files_to_send = created_paths)
    (hcpne : created_paths.isEmpty = false)
    (hfresh : alreadySent (batch_id h files_to_send "created")
      (evictRecent ttl now st.recent_batch_ids) = false) :
    (maybe_send h debounce cooldown ttl fs ie inm ex postOk st now).2 =
      some ⟨files_to_send, "created", created_paths, batch_id h files_to_send "created"⟩ ∧
    (maybe_send h debounce cooldown ttl fs ie inm ex postOk st now).1.pending_paths = [] ∧
    (maybe_send h debounce cooldown ttl fs ie inm ex postOk st now).1.pending_created = [] := by
  have hfane : files_all.isEmpty = false := by
    cases hfae : files_all.isEmpty
    · rfl
    · rw [List.isEmpty_iff] at hfae
      rw [hfae] at hfts
      simp only [List.filter_nil] at hfts
      rw [← hfts] at hne
      simp at hne
  simp only [maybe_send, hpend, hq, hfa, hfane, hfts, hcp, hne, hcpne, hfresh,
    Bool.false_eq_true, if_false, ite_false, ite_true]
  cases postOk <;> simp [clearPend]

/-- C1 — witness for `c1_theorem` at the concrete C1 scenario. -/
theorem c1_witness :
    (maybe_send id 10 300 180 fsC1 INCLUDE_EXT_DEFAULT INCLUDE_NAMES_DEFAULT
        EXCLUDE_DIRS_DEFAULT true stC1 100).2 =
      some ⟨[⟨"a.tf", "a.tf", "A"⟩, ⟨"b.tf", "b.tf", "B"⟩], "created", ["a.tf"],
        batch_id id [⟨"a.tf", "a.tf", "A"⟩, ⟨"b.tf", "b.tf", "B"⟩] "created"⟩ ∧
    (maybe_send id 10 300 180 fsC1 INCLUDE_EXT_DEFAULT INCLUDE_NAMES_DEFAULT
        EXCLUDE_DIRS_DEFAULT true stC1 100).1.pending_paths = [] ∧
    (maybe_send id 10 300 180 fsC1 INCLUDE_EXT_DEFAULT INCLUDE_NAMES_DEFAULT
        EXCLUDE_DIRS_DEFAULT true stC1 100).1.pending_created = [] :=
  c1_theorem id 10 300 180 fsC1 INCLUDE_EXT_DEFAULT INCLUDE_NAMES_DEFAULT
    EXCLUDE_DIRS_DEFAULT true stC1 100
    [⟨"a.tf", "a.tf", "A"⟩, ⟨"b.tf", "b.tf", "B"⟩]
    [⟨"a.tf", "a.tf", "A"⟩, ⟨"b.tf", "b.tf", "B"⟩] ["a.tf"]
    rfl (by decide) rfl rfl rfl rfl rfl rfl

/-! ## C2: client vs. server fingerprint -/

/-- C2 — counterexample.  For a concrete single-file batch the
fingerprint the client computes with `_batch_id` differs from the
fingerprint the server recomputes with `_batch_fingerprint` over the
posted payload (shown for the identity digest; the two functions feed
different seed strings to the digest). -/
theorem c2_counterexample :
    batch_id id [⟨"a.tf", "a.tf", "X"⟩] "modified" ≠
      batch_fingerprint id (clientPayload "u@example.com" [⟨"a.tf", "a.tf", "X"⟩]
        "modified" [] (batch_id id [⟨"a.tf", "a.tf", "X"⟩] "modified")) := by
  decide

/-- C2 — amended.  For every dispatched non-empty batch and every
injective digest, the client fingerprint and the server-recomputed
fingerprint DIFFER: the server's seed prepends the repo identity (read
as `""`, since `_post_batch` sends no `repo_id`) and the sorted created
paths, so the two sides digest different strings.  (Each side is
internally consistent, so each cache still deduplicates its own
resubmissions.) -/
theorem c2_theorem (h : String → String) (hinj : Function.Injective h)
    (email reason : String) (files : List FileEntry) (created : List String)
    (bid : String) (hne : files ≠ []) :
    batch_id h files reason ≠
      batch_fingerprint h (clientPayload email files reason created bid) := by
  intro he
  simp only [batch_id, batch_fingerprint, clientPayload] at he
  have hseed := hinj he
  have hpne : (sortFiles files).map (filePart h) ≠ [] := by
    intro hc
    rw [List.map_eq_nil_iff] at hc
    have hp := sortFiles_perm files
    rw [hc] at hp
    exact hne hp.nil_eq.symm
  have htne : sortStrings created ++ (sortFiles files).map (filePart h) ≠ [] := by
    intro hc
    exact hpne (List.append_eq_nil.mp hc).2
  have hu1 : joinSep "|" ((("" : String) :: [reason]) ++ sortStrings created
      ++ (sortFiles files).map (filePart h)) =
      "" ++ "|" ++ joinSep "|" (reason :: (sortStrings created
        ++ (sortFiles files).map (filePart h))) := by
    rw [List.cons_append, List.cons_append]
    exact joinSep_cons "|" "" (by simp)
  have hu2 : joinSep "|" (reason :: (sortStrings created
      ++ (sortFiles files).map (filePart h))) =
      reason ++ "|" ++ joinSep "|" (sortStrings created
        ++ (sortFiles files).map (filePart h)) :=
    joinSep_cons "|" reason htne
  rw [hu1, hu2] at hseed
  have hlen := congrArg String.length hseed
  have hge := length_joinSep_append_ge "|" (sortStrings created)
    ((sortFiles files).map (filePart h)) hpne
  have h0 : ("" : String).length = 0 := rfl
  have h1 : ("|" : String).length = 1 := rfl
  simp only [String.length_append, h0, h1] at hlen
  omega

/-- C2 — witness for `c2_theorem` at a concrete batch and the identity
digest (which is injective). -/
theorem c2_witness :
    batch_id id [⟨"b.tf", "b.tf", "Y"⟩] "created" ≠
      batch_fingerprint id (clientPayload "u@example.com" [⟨"b.tf", "b.tf", "Y"⟩]
        "created" ["b.tf"] "bid") :=
  c2_theorem id (fun a b hab => hab) "u@example.com" "created"
    [⟨"b.tf", "b.tf", "Y"⟩] ["b.tf"] "bid" (by decide)

/-! ## C7: per-recipient email suppression -/

/-- C7 — counterexample.  The code's `_should_send` digests only the
BODY, not subject+body as the claim states.  Concretely: after one email
(subject `"S1"`, body `"B"`) is sent and recorded at time 0, a second
email at time 1 with a DIFFERENT subject `"S2"` and the same body is
withheld by the code, while the claim's subject+body comparison (same
state machine digesting `subject ++ body`) would send it. -/
theorem c7_counterexample :
    (should_send id 120 1 ((should_send id 120 0 [] "u@x" "B").2) "u@x" "B").1 = false ∧
    (should_send_spec id 120 1 ((should_send_spec id 120 0 [] "u@x" "S1" "B").2)
      "u@x" "S2" "B").1 = true := by
  exact ⟨rfl, rfl⟩

/-- C7 — amended.  Before sending, the server compares a digest of the
outgoing BODY (not subject+body) against the last digest sent to that
recipient, and withholds the email whenever that digest is identical and
less than `EMAIL_MIN_INTERVAL` has elapsed — while the analysis itself
still proceeds (one `ai_scan` call per file) and its results and issue
count are returned. -/
theorem c7_theorem (h : String → String) (allowMulti : Bool) (ttl minInterval : ℤ)
    (llm : String → String → String → Option String) (clean : String → List String)
    (smtpOk : Bool) (tsIso : String) (st : ServerState) (p : Payload) (now ts0 : ℤ)
    (results : List (String × List String)) (total : Nat) (body : String)
    (hdp : (dedup_phase h ttl st p now).2 = false)
    (hguard : (!allowMulti &&
        ((if p.notify_reason == "" then "initial" else p.notify_reason) == "modified") &&
        p.created_paths.isEmpty && decide (p.files.length > 1)) = false)
    (hres : (p.files.map (fun f =>
        (fileDisplayName f, ai_scan llm clean (guess_domain (fileDisplayName f) f.content)
          (fileDisplayName f) f.content))).foldl
        (fun d kv => dictSet kv.1 kv.2 d) [] = results)
    (htot : ((p.files.map (fun f =>
        (fileDisplayName f, ai_scan llm clean (guess_domain (fileDisplayName f) f.content)
          (fileDisplayName f) f.content))).map
        (fun kv => kv.2.length)).sum = total)
    (hbody : (format_email (if p.notify_reason == "" then "initial" else p.notify_reason)
        p.created_paths results tsIso).2 = body)
    (hemail : trimStr p.email ≠ "")
    (htpos : total > 0)
    (hlook : (dedup_phase h ttl st p now).1.email_state.lookup (trimStr p.email) =
      some (ts0, h body))
    (hfresh : now - ts0 < minInterval) :
    (analyze_batch h allowMulti ttl minInterval llm clean smtpOk tsIso st p now).sendAttempts = 0 ∧
    (analyze_batch h allowMulti ttl minInterval llm clean smtpOk tsIso st p now).resp.email_sent
      = false ∧
    (analyze_batch h allowMulti ttl minInterval llm clean smtpOk tsIso st p now).aiCalls
      = p.files.length ∧
    (analyze_batch h allowMulti ttl minInterval llm clean smtpOk tsIso st p now).resp.issues_found
      = total ∧
    (analyze_batch h allowMulti ttl minInterval llm clean smtpOk tsIso st p now).resp.results
      = some results := by
  have hss : should_send h minInterval now (dedup_phase h ttl st p now).1.email_state
      (trimStr p.email) body = (false, (dedup_phase h ttl st p now).1.email_state) := by
    simp only [should_send, hlook]
    simp [hfresh]
  simp only [analyze_batch, hdp, hguard, hres, htot, hbody, hss, Bool.false_eq_true,
    if_false, ite_false, ite_true, List.length_map]
  rw [if_pos ⟨hemail, htpos⟩]
  simp

/-- C7 — witness for `c7_theorem` at the concrete scenario of `stC7`. -/
theorem c7_witness :
    (analyze_batch id true 180 120 (fun _ _ _ => some "bad") (fun s => [s]) true "TS"
      stC7 pC7 50).sendAttempts = 0 ∧
    (analyze_batch id true 180 120 (fun _ _ _ => some "bad") (fun s => [s]) true "TS"
      stC7 pC7 50).resp.email_sent = false ∧
    (analyze_batch id true 180 120 (fun _ _ _ => some "bad") (fun s => [s]) true "TS"
      stC7 pC7 50).aiCalls = pC7.files.length ∧
    (analyze_batch id true 180 120 (fun _ _ _ => some "bad") (fun s => [s]) true "TS"
      stC7 pC7 50).resp.issues_found = 1 ∧
    (analyze_batch id true 180 120 (fun _ _ _ => some "bad") (fun s => [s]) true "TS"
      stC7 pC7 50).resp.results = some [("a.tf", ["bad"])] :=
  c7_theorem id true 180 120 (fun _ _ _ => some "bad") (fun s => [s]) true "TS"
    stC7 pC7 50 0 [("a.tf", ["bad"])] 1
    ((format_email "modified" [] [("a.tf", ["bad"])] "TS").2)
    rfl rfl rfl rfl rfl (by decide) (by decide) rfl (by decide)

/-! ## C8: excluded directories at event-handling time -/

/-- C8 — counterexample.  A file event under `node_modules` (an excluded
directory) whose basename passes the extension filter IS added to the
pending set by the event handler `H._q`: the handler checks `_in_scope`
only and performs no excluded-directory check, so "such a path is never
added to the pending set at event-handling time" is false on the code. -/
theorem c8_counterexample :
    hasExcludedDir EXCLUDE_DIRS_DEFAULT "node_modules/x.yaml" = true ∧
    (onEvent INCLUDE_EXT_DEFAULT INCLUDE_NAMES_DEFAULT initState
      "node_modules/x.yaml" false 5).pending_paths = ["node_modules/x.yaml"] := by
  exact ⟨rfl, rfl⟩

theorem collect_specific_no_excluded (fs : String → Option FsEntry)
    (ie inm ex : List String) (paths : List String) (f : FileEntry)
    (hf : f ∈ collect_specific fs ie inm ex paths) :
    hasExcludedDir ex f.path = false := by
  unfold collect_specific at hf
  have hf2 := List.mem_of_mem_take hf
  obtain ⟨rel, _, hrel⟩ := List.mem_filterMap.mp hf2
  by_cases hx : hasExcludedDir ex rel = true
  · rw [if_pos hx] at hrel
    exact absurd hrel (by simp)
  · rw [if_neg hx] at hrel
    cases hfs : fs rel with
    | none =>
      rw [hfs] at hrel
      exact absurd hrel (by simp)
    | some e =>
      rw [hfs] at hrel
      by_cases hsc : in_scope rel ie inm
      · by_cases hsz : e.size > MAX_BYTES_PER_FILE
        · simp only [hsc, hsz, Bool.not_true, Bool.false_eq_true, if_false, ite_true,
            ite_false] at hrel
          exact absurd hrel (by simp)
        · simp only [hsc, hsz, Bool.not_true, Bool.false_eq_true, if_false, ite_true,
            ite_false] at hrel
          have hfp : f.path = rel := by
            rw [← Option.some_inj.mp hrel]
          rw [hfp]
          exact Bool.not_eq_true _ ▸ (by simpa using hx)
      · simp only [Bool.not_eq_true] at hsc
        simp only [hsc, Bool.not_false, ite_true] at hrel
        exact absurd hrel (by simp)

theorem maybe_send_files_sub (h : String → String) (debounce cooldown ttl : ℤ)
    (fs : String → Option FsEntry) (ie inm ex : List String) (postOk : Bool)
    (st : ClientState) (now : ℤ) (b : Batch)
    (hb : (maybe_send h debounce cooldown ttl fs ie inm ex postOk st now).2 = some b) :
    b.files = (collect_specific fs ie inm ex st.pending_paths).filter
      (cooldown_keep h cooldown now st.last_notify) := by
  unfold maybe_send at hb
  split_ifs at hb <;> try simp_all
  all_goals (split_ifs at hb <;> try simp_all)
  all_goals rw [← hb]

/-- C8 — amended.  The event handler does NOT re-apply directory
exclusion: any path passing the name/extension filter is inserted into
the pending set regardless of excluded segments (first conjunct).
Directory exclusion is instead re-applied during materialization:
`_collect_specific` drops every path with an excluded non-final segment
(second conjunct), hence no dispatched batch can contain such a path
(third conjunct). -/
theorem c8_theorem :
    (∀ (ie inm : List String) (st : ClientState) (rel : String) (c : Bool) (now : ℤ),
      in_scope rel ie inm = true →
      (onEvent ie inm st rel c now).pending_paths = insertStr rel st.pending_paths) ∧
    (∀ (fs : String → Option FsEntry) (ie inm ex paths : List String) (f : FileEntry),
      f ∈ collect_specific fs ie inm ex paths → hasExcludedDir ex f.path = false) ∧
    (∀ (h : String → String) (debounce cooldown ttl : ℤ) (fs : String → Option FsEntry)
      (ie inm ex : List String) (postOk : Bool) (st : ClientState) (now : ℤ)
      (b : Batch) (f : FileEntry),
      (maybe_send h debounce cooldown ttl fs ie inm ex postOk st now).2 = some b →
      f ∈ b.files → hasExcludedDir ex f.path = false) := by
  refine ⟨?_, ?_, ?_⟩
  · intro ie inm st rel c now hsc
    simp [onEvent, hsc]
  · intro fs ie inm ex paths f hf
    exact collect_specific_no_excluded fs ie inm ex paths f hf
  · intro h debounce cooldown ttl fs ie inm ex postOk st now b f hb hf
    rw [maybe_send_files_sub h debounce cooldown ttl fs ie inm ex postOk st now b hb] at hf
    exact collect_specific_no_excluded fs ie inm ex st.pending_paths f
      (List.mem_filter.mp hf).1

/-- C8 — witness for `c8_theorem` at concrete inputs: an in-scope event
path is inserted; a materialized file of the C1 scenario has no excluded
segment, both directly and as a member of the dispatched batch. -/
theorem c8_witness :
    (onEvent INCLUDE_EXT_DEFAULT INCLUDE_NAMES_DEFAULT initState
      "x.yaml" false 5).pending_paths = insertStr "x.yaml" initState.pending_paths ∧
    hasExcludedDir EXCLUDE_DIRS_DEFAULT "a.tf" = false ∧
    hasExcludedDir EXCLUDE_DIRS_DEFAULT "b.tf" = false :=
  ⟨c8_theorem.1 INCLUDE_EXT_DEFAULT INCLUDE_NAMES_DEFAULT initState "x.yaml" false 5 rfl,
   c8_theorem.2.1 fsC1 INCLUDE_EXT_DEFAULT INCLUDE_NAMES_DEFAULT EXCLUDE_DIRS_DEFAULT
     ["a.tf", "b.tf"] ⟨"a.tf", "a.tf", "A"⟩ (by decide),
   c8_theorem.2.2 id 10 300 180 fsC1 INCLUDE_EXT_DEFAULT INCLUDE_NAMES_DEFAULT
     EXCLUDE_DIRS_DEFAULT true stC1 100
     ⟨[⟨"a.tf", "a.tf", "A"⟩, ⟨"b.tf", "b.tf", "B"⟩], "created", ["a.tf"],
       batch_id id [⟨"a.tf", "a.tf", "A"⟩, ⟨"b.tf", "b.tf", "B"⟩] "created"⟩
     ⟨"b.tf", "b.tf", "B"⟩ rfl (by decide)⟩

/-! ## C3, C9, C10: server-side dedup and analysis -/
theorem dedup_phase_fresh (h : String → String) (ttl : ℤ) (st : ServerState)
    (p : Payload) (now : ℤ)
    (hfresh : (pruneRecent ttl now st.recent_batch).lookup (batch_fingerprint h p) = none) :
    (dedup_phase h ttl st p now).2 = false ∧
    (dedup_phase h ttl st p now).1.recent_batch =
      pruneRecent ttl now st.recent_batch ++ [(batch_fingerprint h p, now)] ∧
    (dedup_phase h ttl st p now).1.recent_batch.lookup (batch_fingerprint h p) = some now ∧
    (dedup_phase h ttl st p now).1.email_state = st.email_state := by
  have h2 : (dedup_phase h ttl st p now).2 = false := by
    unfold dedup_phase
    simp [hfresh]
  have h1 : (dedup_phase h ttl st p now).1.recent_batch =
      pruneRecent ttl now st.recent_batch ++ [(batch_fingerprint h p, now)] := by
    unfold dedup_phase
    simp [hfresh]
  have h4 : (dedup_phase h ttl st p now).1.email_state = st.email_state := by
    unfold dedup_phase
    simp [hfresh]
  refine ⟨h2, h1, ?_, h4⟩
  rw [h1, lookup_append_of_none _ _ _ hfresh]
  simp [List.lookup]

theorem analyze_state_recent (h : String → String) (allowMulti : Bool)
    (ttl minInterval : ℤ) (llm : String → String → String → Option String)
    (clean : String → List String) (smtpOk : Bool) (tsIso : String)
    (st : ServerState) (p : Payload) (now : ℤ) :
    (analyze_batch h allowMulti ttl minInterval llm clean smtpOk tsIso st p now).state.recent_batch
      = (dedup_phase h ttl st p now).1.recent_batch := by
  simp only [analyze_batch]
  split_ifs <;> rfl

theorem analyze_deduped_false (h : String → String) (allowMulti : Bool)
    (ttl minInterval : ℤ) (llm : String → String → String → Option String)
    (clean : String → List String) (smtpOk : Bool) (tsIso : String)
    (st : ServerState) (p : Payload) (now : ℤ)
    (hdp : (dedup_phase h ttl st p now).2 = false) :
    (analyze_batch h allowMulti ttl minInterval llm clean smtpOk tsIso st p now).resp.deduped
      = false := by
  simp only [analyze_batch, hdp, Bool.false_eq_true, if_false, ite_false]
  split_ifs <;> rfl

theorem pruneRecent_lookup_none (ttl t2 : ℤ) (rb : List (String × ℤ)) (k : String)
    (hn : rb.lookup k = none) : (pruneRecent ttl t2 rb).lookup k = none := by
  rw [lookup_eq_none_iff] at hn ⊢
  intro e he
  exact hn e (List.mem_of_mem_filter he)

theorem dedup_second_true (h : String → String) (ttl : ℤ) (st : ServerState)
    (p : Payload) (t1 t2 : ℤ) (st2 : ServerState)
    (hrb2 : st2.recent_batch =
      pruneRecent ttl t1 st.recent_batch ++ [(batch_fingerprint h p, t1)])
    (hfresh : (pruneRecent ttl t1 st.recent_batch).lookup (batch_fingerprint h p) = none)
    (hgap : t2 - t1 ≤ ttl) :
    (dedup_phase h ttl st2 p t2).2 = true := by
  unfold dedup_phase
  rw [hrb2]
  have hkeep : (fun kv : String × ℤ => !decide (t2 - kv.2 > ttl)) (batch_fingerprint h p, t1)
      = true := by
    simp only [decide_eq_true_iff, Bool.not_eq_true']
    simp only [decide_eq_false_iff_not, not_lt]
    exact hgap
  have hsplit : pruneRecent ttl t2 (pruneRecent ttl t1 st.recent_batch
      ++ [(batch_fingerprint h p, t1)]) =
      pruneRecent ttl t2 (pruneRecent ttl t1 st.recent_batch)
        ++ [(batch_fingerprint h p, t1)] := by
    unfold pruneRecent
    rw [List.filter_append]
    congr 1
    simp only [List.filter, hkeep]
  simp only [hsplit]
  rw [lookup_append_of_none _ _ _
    (pruneRecent_lookup_none ttl t2 _ _ hfresh)]
  simp [List.lookup]

theorem analyze_dedup_resp (h : String → String) (allowMulti : Bool)
    (ttl minInterval : ℤ) (llm : String → String → String → Option String)
    (clean : String → List String) (smtpOk : Bool) (tsIso : String)
    (st : ServerState) (p : Payload) (now : ℤ)
    (hdp : (dedup_phase h ttl st p now).2 = true) :
    analyze_batch h allowMulti ttl minInterval llm clean smtpOk tsIso st p now =
      ⟨(dedup_phase h ttl st p now).1,
       ⟨p.files.length, 0, false, true, none, none, none⟩, 0, 0⟩ := by
  simp only [analyze_batch, hdp, if_true, ite_true]

/-- C3 — confirmed.  If a batch whose fingerprint is not in the (pruned)
server cache is submitted at `t1` and the identical payload is submitted
again at `t2` with `t2 - t1 < BATCH_TTL`, the second request is answered
as a duplicate no-op (`deduped = true`, a flag the analyzed path never
sets) with zero `ai_scan` calls and zero email attempts; and the
fingerprint is recorded by the dedup phase — which precedes the analysis
call — with timestamp `t1` (second conjunct), so any identical
submission after that recording is deduplicated even while the first is
still being analyzed. -/
theorem c3_theorem (h : String → String) (allowMulti : Bool) (ttl minInterval : ℤ)
    (llm : String → String → String → Option String) (clean : String → List String)
    (smtpOk smtpOk2 : Bool) (tsIso tsIso2 : String) (st : ServerState) (p : Payload)
    (t1 t2 : ℤ)
    (hfresh : (pruneRecent ttl t1 st.recent_batch).lookup (batch_fingerprint h p) = none)
    (hgap : t2 - t1 < ttl) :
    (analyze_batch h allowMulti ttl minInterval llm clean smtpOk tsIso st p t1).resp.deduped
      = false ∧
    (dedup_phase h ttl st p t1).1.recent_batch.lookup (batch_fingerprint h p) = some t1 ∧
    (analyze_batch h allowMulti ttl minInterval llm clean smtpOk2 tsIso2
      (analyze_batch h allowMulti ttl minInterval llm clean smtpOk tsIso st p t1).state
      p t2).resp.deduped = true ∧
    (analyze_batch h allowMulti ttl minInterval llm clean smtpOk2 tsIso2
      (analyze_batch h allowMulti ttl minInterval llm clean smtpOk tsIso st p t1).state
      p t2).resp.issues_found = 0 ∧
    (analyze_batch h allowMulti ttl minInterval llm clean smtpOk2 tsIso2
      (analyze_batch h allowMulti ttl minInterval llm clean smtpOk tsIso st p t1).state
      p t2).aiCalls = 0 ∧
    (analyze_batch h allowMulti ttl minInterval llm clean smtpOk2 tsIso2
      (analyze_batch h allowMulti ttl minInterval llm clean smtpOk tsIso st p t1).state
      p t2).sendAttempts = 0 ∧
    (analyze_batch h allowMulti ttl minInterval llm clean smtpOk2 tsIso2
      (analyze_batch h allowMulti ttl minInterval llm clean smtpOk tsIso st p t1).state
      p t2).resp.email_sent = false := by
  obtain ⟨hd2, hrb, hlk, hes⟩ := dedup_phase_fresh h ttl st p t1 hfresh
  have hrb1 : (analyze_batch h allowMulti ttl minInterval llm clean smtpOk tsIso
      st p t1).state.recent_batch =
      pruneRecent ttl t1 st.recent_batch ++ [(batch_fingerprint h p, t1)] :=
    (analyze_state_recent h allowMulti ttl minInterval llm clean smtpOk tsIso st p t1).trans hrb
  have hdp2 : (dedup_phase h ttl
      (analyze_batch h allowMulti ttl minInterval llm clean smtpOk tsIso st p t1).state
      p t2).2 = true :=
    dedup_second_true h ttl st p t1 t2 _ hrb1 hfresh (le_of_lt hgap)
  have ho2 := analyze_dedup_resp h allowMulti ttl minInterval llm clean smtpOk2 tsIso2
    (analyze_batch h allowMulti ttl minInterval llm clean smtpOk tsIso st p t1).state
    p t2 hdp2
  rw [ho2]
  exact ⟨analyze_deduped_false h allowMulti ttl minInterval llm clean smtpOk tsIso
    st p t1 hd2, hlk, rfl, rfl, rfl, rfl, rfl⟩

/-- C3 — witness for `c3_theorem`: an empty cache, the same payload at
times 0 and 100 with `BATCH_TTL = 180`. -/
theorem c3_witness :
    (analyze_batch id true 180 120 (fun _ _ _ => none) (fun _ => []) true "TS"
      stS0 pC3 0).resp.deduped = false ∧
    (dedup_phase id 180 stS0 pC3 0).1.recent_batch.lookup (batch_fingerprint id pC3)
      = some 0 ∧
    (analyze_batch id true 180 120 (fun _ _ _ => none) (fun _ => []) true "TS"
      (analyze_batch id true 180 120 (fun _ _ _ => none) (fun _ => []) true "TS"
        stS0 pC3 0).state pC3 100).resp.deduped = true ∧
    (analyze_batch id true 180 120 (fun _ _ _ => none) (fun _ => []) true "TS"
      (analyze_batch id true 180 120 (fun _ _ _ => none) (fun _ => []) true "TS"
        stS0 pC3 0).state pC3 100).resp.issues_found = 0 ∧
    (analyze_batch id true 180 120 (fun _ _ _ => none) (fun _ => []) true "TS"
      (analyze_batch id true 180 120 (fun _ _ _ => none) (fun _ => []) true "TS"
        stS0 pC3 0).state pC3 100).aiCalls = 0 ∧
    (analyze_batch id true 180 120 (fun _ _ _ => none) (fun _ => []) true "TS"
      (analyze_batch id true 180 120 (fun _ _ _ => none) (fun _ => []) true "TS"
        stS0 pC3 0).state pC3 100).sendAttempts = 0 ∧
    (analyze_batch id true 180 120 (fun _ _ _ => none) (fun _ => []) true "TS"
      (analyze_batch id true 180 120 (fun _ _ _ => none) (fun _ => []) true "TS"
        stS0 pC3 0).state pC3 100).resp.email_sent = false :=
  c3_theorem id true 180 120 (fun _ _ _ => none) (fun _ => []) true true "TS" "TS"
    stS0 pC3 0 100 rfl (by decide)

/-- C10 — confirmed.  With `ALLOW_MULTI_MOD_EMAILS` disabled, a fresh
request with reason `modified`, no created paths and more than one file
is acknowledged with the `multi-file-modified` suppression flag,
performing no analysis and attempting no email — yet its fingerprint is
still recorded by the preceding dedup phase, so an identical submission
within `BATCH_TTL` is answered as a duplicate. -/
theorem c10_theorem (h : String → String) (ttl minInterval : ℤ)
    (llm : String → String → String → Option String) (clean : String → List String)
    (smtpOk smtpOk2 : Bool) (tsIso tsIso2 : String) (st : ServerState) (p : Payload)
    (t1 t2 : ℤ)
    (hfresh : (pruneRecent ttl t1 st.recent_batch).lookup (batch_fingerprint h p) = none)
    (hgap : t2 - t1 < ttl)
    (hreason : p.notify_reason = "modified")
    (hcp : p.created_paths = [])
    (hlen : p.files.length > 1) :
    (analyze_batch h false ttl minInterval llm clean smtpOk tsIso st p t1).resp.suppressed
      = some "multi-file-modified" ∧
    (analyze_batch h false ttl minInterval llm clean smtpOk tsIso st p t1).resp.issues_found
      = 0 ∧
    (analyze_batch h false ttl minInterval llm clean smtpOk tsIso st p t1).aiCalls = 0 ∧
    (analyze_batch h false ttl minInterval llm clean smtpOk tsIso st p t1).sendAttempts = 0 ∧
    (analyze_batch h false ttl minInterval llm clean smtpOk tsIso st p t1).resp.email_sent
      = false ∧
    (dedup_phase h ttl st p t1).1.recent_batch.lookup (batch_fingerprint h p) = some t1 ∧
    (analyze_batch h false ttl minInterval llm clean smtpOk2 tsIso2
      (analyze_batch h false ttl minInterval llm clean smtpOk tsIso st p t1).state
      p t2).resp.deduped = true ∧
    (analyze_batch h false ttl minInterval llm clean smtpOk2 tsIso2
      (analyze_batch h false ttl minInterval llm clean smtpOk tsIso st p t1).state
      p t2).aiCalls = 0 ∧
    (analyze_batch h false ttl minInterval llm clean smtpOk2 tsIso2
      (analyze_batch h false ttl minInterval llm clean smtpOk tsIso st p t1).state
      p t2).sendAttempts = 0 := by
  obtain ⟨hd2, hrb, hlk, hes⟩ := dedup_phase_fresh h ttl st p t1 hfresh
  have hguard : (!false &&
      ((if p.notify_reason == "" then "initial" else p.notify_reason) == "modified") &&
      p.created_paths.isEmpty && decide (p.files.length > 1)) = true := by
    simp [hreason, hcp, hlen]
  have ho1 : analyze_batch h false ttl minInterval llm clean smtpOk tsIso st p t1 =
      ⟨(dedup_phase h ttl st p t1).1,
       ⟨p.files.length, 0, false, false, some "multi-file-modified", none, none⟩, 0, 0⟩ := by
    simp only [analyze_batch, hd2, Bool.false_eq_true, if_false, ite_false, hguard,
      if_true, ite_true]
  have hrb1 : (analyze_batch h false ttl minInterval llm clean smtpOk tsIso
      st p t1).state.recent_batch =
      pruneRecent ttl t1 st.recent_batch ++ [(batch_fingerprint h p, t1)] := by
    rw [ho1]
    exact hrb
  have hdp2 : (dedup_phase h ttl
      (analyze_batch h false ttl minInterval llm clean smtpOk tsIso st p t1).state
      p t2).2 = true :=
    dedup_second_true h ttl st p t1 t2 _ hrb1 hfresh (le_of_lt hgap)
  have ho2 := analyze_dedup_resp h false ttl minInterval llm clean smtpOk2 tsIso2
    (analyze_batch h false ttl minInterval llm clean smtpOk tsIso st p t1).state
    p t2 hdp2
  rw [ho2, ho1]
  exact ⟨rfl, rfl, rfl, rfl, rfl, hlk, rfl, rfl, rfl⟩

/-- C10 — witness for `c10_theorem` at the concrete two-file payload. -/
theorem c10_witness :
    (analyze_batch id false 180 120 (fun _ _ _ => none) (fun _ => []) true "TS"
      stS0 pC10 0).resp.suppressed = some "multi-file-modified" ∧
    (analyze_batch id false 180 120 (fun _ _ _ => none) (fun _ => []) true "TS"
      stS0 pC10 0).resp.issues_found = 0 ∧
    (analyze_batch id false 180 120 (fun _ _ _ => none) (fun _ => []) true "TS"
      stS0 pC10 0).aiCalls = 0 ∧
    (analyze_batch id false 180 120 (fun _ _ _ => none) (fun _ => []) true "TS"
      stS0 pC10 0).sendAttempts = 0 ∧
    (analyze_batch id false 180 120 (fun _ _ _ => none) (fun _ => []) true "TS"
      stS0 pC10 0).resp.email_sent = false ∧
    (dedup_phase id 180 stS0 pC10 0).1.recent_batch.lookup (batch_fingerprint id pC10)
      = some 0 ∧
    (analyze_batch id false 180 120 (fun _ _ _ => none) (fun _ => []) true "TS"
      (analyze_batch id false 180 120 (fun _ _ _ => none) (fun _ => []) true "TS"
        stS0 pC10 0).state pC10 100).resp.deduped = true ∧
    (analyze_batch id false 180 120 (fun _ _ _ => none) (fun _ => []) true "TS"
      (analyze_batch id false 180 120 (fun _ _ _ => none) (fun _ => []) true "TS"
        stS0 pC10 0).state pC10 100).aiCalls = 0 ∧
    (analyze_batch id false 180 120 (fun _ _ _ => none) (fun _ => []) true "TS"
      (analyze_batch id false 180 120 (fun _ _ _ => none) (fun _ => []) true "TS"
        stS0 pC10 0).state pC10 100).sendAttempts = 0 :=
  c10_theorem id 180 120 (fun _ _ _ => none) (fun _ => []) true true "TS" "TS"
    stS0 pC10 0 100 rfl (by decide) rfl rfl (by decide)

/-- C9 — confirmed.  If the LLM call raises for every file (`llm = none`
on each), `ai_scan` returns `[]` per file, so a fresh, non-suppressed
request is answered as a success: `issues_found = 0`, no dedup or
suppression flag, no error indication, one `ai_scan` call per file, no
email — and since the fingerprint was recorded before the analysis,
resubmitting the identical batch within `BATCH_TTL` is deduplicated
rather than re-analyzed. -/
theorem c9_theorem (h : String → String) (allowMulti : Bool) (ttl minInterval : ℤ)
    (llm : String → String → String → Option String) (clean : String → List String)
    (smtpOk smtpOk2 : Bool) (tsIso tsIso2 : String) (st : ServerState) (p : Payload)
    (t1 t2 : ℤ)
    (hfresh : (pruneRecent ttl t1 st.recent_batch).lookup (batch_fingerprint h p) = none)
    (hgap : t2 - t1 < ttl)
    (hguard : (!allowMulti &&
      ((if p.notify_reason == "" then "initial" else p.notify_reason) == "modified") &&
      p.created_paths.isEmpty && decide (p.files.length > 1)) = false)
    (hllm : ∀ f ∈ p.files,
      llm (guess_domain (fileDisplayName f) f.content) (fileDisplayName f) f.content = none) :
    (analyze_batch h allowMulti ttl minInterval llm clean smtpOk tsIso st p t1).resp.issues_found
      = 0 ∧
    (analyze_batch h allowMulti ttl minInterval llm clean smtpOk tsIso st p t1).resp.deduped
      = false ∧
    (analyze_batch h allowMulti ttl minInterval llm clean smtpOk tsIso st p t1).resp.suppressed
      = none ∧
    (analyze_batch h allowMulti ttl minInterval llm clean smtpOk tsIso st p t1).aiCalls
      = p.files.length ∧
    (analyze_batch h allowMulti ttl minInterval llm clean smtpOk tsIso st p t1).sendAttempts
      = 0 ∧
    (analyze_batch h allowMulti ttl minInterval llm clean smtpOk tsIso st p t1).resp.email_sent
      = false ∧
    (analyze_batch h allowMulti ttl minInterval llm clean smtpOk tsIso st p t1).resp.results
      = some ((p.files.map (fun f => (fileDisplayName f, ([] : List String)))).foldl
          (fun d kv => dictSet kv.1 kv.2 d) []) ∧
    (analyze_batch h allowMulti ttl minInterval llm clean smtpOk2 tsIso2
      (analyze_batch h allowMulti ttl minInterval llm clean smtpOk tsIso st p t1).state
      p t2).resp.deduped = true ∧
    (analyze_batch h allowMulti ttl minInterval llm clean smtpOk2 tsIso2
      (analyze_batch h allowMulti ttl minInterval llm clean smtpOk tsIso st p t1).state
      p t2).aiCalls = 0 ∧
    (analyze_batch h allowMulti ttl minInterval llm clean smtpOk2 tsIso2
      (analyze_batch h allowMulti ttl minInterval llm clean smtpOk tsIso st p t1).state
      p t2).sendAttempts = 0 := by
  obtain ⟨hd2, hrb, hlk, hes⟩ := dedup_phase_fresh h ttl st p t1 hfresh
  have hper : p.files.map (fun f => (fileDisplayName f,
      ai_scan llm clean (guess_domain (fileDisplayName f) f.content)
        (fileDisplayName f) f.content)) =
      p.files.map (fun f => (fileDisplayName f, ([] : List String))) :=
    List.map_congr_left (fun f hf => by simp [ai_scan, hllm f hf])
  have htot0 : ((p.files.map (fun f => (fileDisplayName f, ([] : List String)))).map
      (fun kv => kv.2.length)).sum = 0 := by
    rw [List.map_map]
    simp [Function.comp, List.sum_eq_zero_iff]
  have ho1 : analyze_batch h allowMulti ttl minInterval llm clean smtpOk tsIso st p t1 =
      ⟨(dedup_phase h ttl st p t1).1,
       ⟨p.files.length, 0, false, false, none,
        some ((p.files.map (fun f => (fileDisplayName f, ([] : List String)))).foldl
          (fun d kv => dictSet kv.1 kv.2 d) []),
        some (batch_fingerprint h p)⟩, p.files.length, 0⟩ := by
    simp only [analyze_batch, hd2, Bool.false_eq_true, if_false, ite_false, hguard,
      hper, htot0]
    rw [if_neg]
    intro hc
    exact absurd hc.2 (by simp)
  have hrb1 : (analyze_batch h allowMulti ttl minInterval llm clean smtpOk tsIso
      st p t1).state.recent_batch =
      pruneRecent ttl t1 st.recent_batch ++ [(batch_fingerprint h p, t1)] := by
    rw [ho1]
    exact hrb
  have hdp2 : (dedup_phase h ttl
      (analyze_batch h allowMulti ttl minInterval llm clean smtpOk tsIso st p t1).state
      p t2).2 = true :=
    dedup_second_true h ttl st p t1 t2 _ hrb1 hfresh (le_of_lt hgap)
  have ho2 := analyze_dedup_resp h allowMulti ttl minInterval llm clean smtpOk2 tsIso2
    (analyze_batch h allowMulti ttl minInterval llm clean smtpOk tsIso st p t1).state
    p t2 hdp2
  rw [ho2, ho1]
  exact ⟨rfl, rfl, rfl, rfl, rfl, rfl, rfl, rfl, rfl, rfl⟩

/-- C9 — witness for `c9_theorem`: a failing LLM oracle on a concrete
single-file payload, resubmitted at time 100. -/
theorem c9_witness :
    (analyze_batch id true 180 120 (fun _ _ _ => none) (fun _ => []) true "TS"
      stS0 pC9 0).resp.issues_found = 0 ∧
    (analyze_batch id true 180 120 (fun _ _ _ => none) (fun _ => []) true "TS"
      stS0 pC9 0).resp.deduped = false ∧
    (analyze_batch id true 180 120 (fun _ _ _ => none) (fun _ => []) true "TS"
      stS0 pC9 0).resp.suppressed = none ∧
    (analyze_batch id true 180 120 (fun _ _ _ => none) (fun _ => []) true "TS"
      stS0 pC9 0).aiCalls = pC9.files.length ∧
    (analyze_batch id true 180 120 (fun _ _ _ => none) (fun _ => []) true "TS"
      stS0 pC9 0).sendAttempts = 0 ∧
    (analyze_batch id true 180 120 (fun _ _ _ => none) (fun _ => []) true "TS"
      stS0 pC9 0).resp.email_sent = false ∧
    (analyze_batch id true 180 120 (fun _ _ _ => none) (fun _ => []) true "TS"
      stS0 pC9 0).resp.results = some ((pC9.files.map
        (fun f => (fileDisplayName f, ([] : List String)))).foldl
        (fun d kv => dictSet kv.1 kv.2 d) []) ∧
    (analyze_batch id true 180 120 (fun _ _ _ => none) (fun _ => []) true "TS"
      (analyze_batch id true 180 120 (fun _ _ _ => none) (fun _ => []) true "TS"
        stS0 pC9 0).state pC9 100).resp.deduped = true ∧
    (analyze_batch id true 180 120 (fun _ _ _ => none) (fun _ => []) true "TS"
      (analyze_batch id true 180 120 (fun _ _ _ => none) (fun _ => []) true "TS"
        stS0 pC9 0).state pC9 100).aiCalls = 0 ∧
    (analyze_batch id true 180 120 (fun _ _ _ => none) (fun _ => []) true "TS"
      (analyze_batch id true 180 120 (fun _ _ _ => none) (fun _ => []) true "TS"
        stS0 pC9 0).state pC9 100).sendAttempts = 0 :=
  c9_theorem id true 180 120 (fun _ _ _ => none) (fun _ => []) true true "TS" "TS"
    stS0 pC9 0 100 rfl (by decide) rfl (fun f _ => rfl)

/-! ## C4: debounce -/

theorem runActs_append (h : String → String) (debounce cooldown ttl : ℤ)
    (fs : String → Option FsEntry) (ie inm ex : List String) (postOk : Bool)
    (st : ClientState) (l1 l2 : List Act) :
    runActs h debounce cooldown ttl fs ie inm ex postOk st (l1 ++ l2) =
      ((runActs h debounce cooldown ttl fs ie inm ex postOk
          (runActs h debounce cooldown ttl fs ie inm ex postOk st l1).1 l2).1,
       (runActs h debounce cooldown ttl fs ie inm ex postOk st l1).2 ++
       (runActs h debounce cooldown ttl fs ie inm ex postOk
          (runActs h debounce cooldown ttl fs ie inm ex postOk st l1).1 l2).2) := by
  induction l1 generalizing st with
  | nil => simp [runActs]
  | cons a as ih =>
    simp only [List.cons_append, runActs]
    simp [ih, List.append_assoc]

theorem run_burst (h : String → String) (debounce cooldown ttl : ℤ)
    (fs : String → Option FsEntry) (ie inm ex : List String) (postOk : Bool)
    (p : String) (hscope : in_scope p ie inm = true) :
    ∀ (body : List Act) (le? : Option ℤ), burstOk p debounce le? body = true →
    runActs h debounce cooldown ttl fs ie inm ex postOk (burstState p le?) body =
      (burstState p (lastEv le? body), []) := by
  intro body
  induction body with
  | nil => intro le? _; rfl
  | cons a rest ih =>
    intro le? hok
    cases a with
    | ev q c t =>
      simp only [burstOk, Bool.and_eq_true, beq_iff_eq, Bool.not_eq_true'] at hok
      obtain ⟨⟨⟨hq, hc⟩, hgap⟩, hrest⟩ := hok
      subst hq
      subst hc
      have hstep : onEvent ie inm (burstState q le?) q false t = burstState q (some t) := by
        cases le? with
        | none => simp [onEvent, hscope, burstState, initState, insertStr]
        | some l => simp [onEvent, hscope, burstState, initState, insertStr]
      simp only [runActs, stepA, hstep, lastEv]
      rw [ih (some t) hrest]
      simp
    | tick t =>
      simp only [burstOk, Bool.and_eq_true] at hok
      obtain ⟨hgap, hrest⟩ := hok
      have hstep : maybe_send h debounce cooldown ttl fs ie inm ex postOk
          (burstState p le?) t = (burstState p le?, none) := by
        cases le? with
        | none => simp [maybe_send, burstState, initState]
        | some l =>
          have hlt : t - l < debounce := by
            simpa using hgap
          simp [maybe_send, burstState, initState, hlt]
      simp only [runActs, stepA, hstep, lastEv]
      rw [ih le? hrest]
      simp

theorem run_ticks (h : String → String) (debounce cooldown ttl : ℤ)
    (fs : String → Option FsEntry) (ie inm ex : List String) (postOk : Bool) :
    ∀ (tail : List Act) (st : ClientState), st.pending_paths = [] →
    ticksOnly tail = true →
    runActs h debounce cooldown ttl fs ie inm ex postOk st tail = (st, []) := by
  intro tail
  induction tail with
  | nil => intro st _ _; rfl
  | cons a rest ih =>
    intro st hpend htk
    cases a with
    | ev q c t => simp [ticksOnly] at htk
    | tick t =>
      have hstep : maybe_send h debounce cooldown ttl fs ie inm ex postOk st t
          = (st, none) := by
        simp [maybe_send, hpend]
      simp only [runActs, stepA, hstep]
      rw [ih st hpend (by simpa [ticksOnly] using htk)]
      simp

theorem final_fire (h : String → String) (debounce cooldown ttl : ℤ)
    (fs : String → Option FsEntry) (ie inm ex : List String)
    (p : String) (entry : FsEntry) (tF T : ℤ)
    (hscope : in_scope p ie inm = true)
    (hexcl : hasExcludedDir ex p = false)
    (hfs : fs p = some entry)
    (hsize : ¬ entry.size > MAX_BYTES_PER_FILE)
    (hq : debounce ≤ T - tF) :
    (maybe_send h debounce cooldown ttl fs ie inm ex true
        (burstState p (some tF)) T).2 =
      some ⟨[⟨p, pathBasename p, entry.content⟩], "modified", [],
        batch_id h [⟨p, pathBasename p, entry.content⟩] "modified"⟩ ∧
    (maybe_send h debounce cooldown ttl fs ie inm ex true
        (burstState p (some tF)) T).1.pending_paths = [] := by
  have hcol : collect_specific fs ie inm ex [p] = [⟨p, pathBasename p, entry.content⟩] := by
    have hsort : sortStrings [p] = [p] := rfl
    simp [collect_specific, hsort, hexcl, hfs, hscope, hsize]
    simp [MAX_FILES_PER_BATCH]
  have hnq : ¬ (T - tF < debounce) := not_lt.mpr hq
  simp [maybe_send, burstState, initState, hnq, hcol, cooldown_keep, created_of,
    evictRecent, alreadySent, clearPend, List.lookup]

/-- C4 — confirmed.  (a) On any tick of the dispatch loop, if the
pending set is non-empty but `now - last_event_ts < DEBOUNCE_SECONDS`,
`_maybe_send` materializes nothing and leaves the state untouched (every
event resets the clock, since `H._q` sets `last_event_ts = now`).
(b) A burst of modify events on one path, each within the debounce
window of the previous event (`burstOk`), interleaved with quiet-period
ticks, yields no batch during the burst; the first tick at least
`DEBOUNCE_SECONDS` after the last event materializes exactly one batch
(containing exactly that path), and trailing ticks produce nothing more
— one materialized batch in total. -/
theorem c4_theorem :
    (∀ (h : String → String) (debounce cooldown ttl : ℤ) (fs : String → Option FsEntry)
       (ie inm ex : List String) (postOk : Bool) (st : ClientState) (now : ℤ),
      st.pending_paths ≠ [] → now - st.last_event_ts < debounce →
      maybe_send h debounce cooldown ttl fs ie inm ex postOk st now = (st, none)) ∧
    (∀ (h : String → String) (debounce cooldown ttl : ℤ) (fs : String → Option FsEntry)
       (ie inm ex : List String) (p : String) (entry : FsEntry)
       (body tail : List Act) (tF T : ℤ),
      burstOk p debounce none body = true →
      lastEv none body = some tF →
      debounce ≤ T - tF →
      ticksOnly tail = true →
      in_scope p ie inm = true →
      hasExcludedDir ex p = false →
      fs p = some entry →
      ¬ entry.size > MAX_BYTES_PER_FILE →
      (runActs h debounce cooldown ttl fs ie inm ex true initState
        (body ++ Act.tick T :: tail)).2.map (fun b => b.files.map (fun f => f.path))
        = [[p]]) := by
  constructor
  · intro h debounce cooldown ttl fs ie inm ex postOk st now hpend hlt
    have hp : st.pending_paths.isEmpty = false := by
      cases hp : st.pending_paths
      · exact absurd hp hpend
      · rfl
    simp [maybe_send, hp, hlt]
  · intro h debounce cooldown ttl fs ie inm ex p entry body tail tF T
      hok hle hq htk hscope hexcl hfs hsize
    have hbody := run_burst h debounce cooldown ttl fs ie inm ex true p hscope body none hok
    rw [show burstState p none = initState from rfl] at hbody
    obtain ⟨hfire2, hfire1⟩ := final_fire h debounce cooldown ttl fs ie inm ex p entry
      tF T hscope hexcl hfs hsize hq
    rw [runActs_append, hbody]
    simp only [hle]
    have hrest : runActs h debounce cooldown ttl fs ie inm ex true
        (burstState p (some tF)) (Act.tick T :: tail) =
        ((runActs h debounce cooldown ttl fs ie inm ex true
          (maybe_send h debounce cooldown ttl fs ie inm ex true
            (burstState p (some tF)) T).1 tail).1,
         (maybe_send h debounce cooldown ttl fs ie inm ex true
            (burstState p (some tF)) T).2.toList ++
         (runActs h debounce cooldown ttl fs ie inm ex true
          (maybe_send h debounce cooldown ttl fs ie inm ex true
            (burstState p (some tF)) T).1 tail).2) := rfl
    rw [hrest, hfire2,
      run_ticks h debounce cooldown ttl fs ie inm ex true tail _ hfire1 htk]
    simp

/-- C4 — witness for `c4_theorem`: (a) a tick at time 5 with debounce 10
does nothing; (b) a burst of two events (t=0, t=4) with ticks at 3 and
6, a firing tick at 14 and a trailing tick at 15 yields exactly one
batch containing `a.tf`. -/
theorem c4_witness :
    maybe_send id 10 300 180 fsC4 INCLUDE_EXT_DEFAULT INCLUDE_NAMES_DEFAULT
      EXCLUDE_DIRS_DEFAULT true stC4 5 = (stC4, none) ∧
    (runActs id 10 300 180 fsC4 INCLUDE_EXT_DEFAULT INCLUDE_NAMES_DEFAULT
      EXCLUDE_DIRS_DEFAULT true initState
      ([Act.ev "a.tf" false 0, Act.tick 3, Act.ev "a.tf" false 4, Act.tick 6]
        ++ Act.tick 14 :: [Act.tick 15])).2.map
      (fun b => b.files.map (fun f => f.path)) = [["a.tf"]] :=
  ⟨c4_theorem.1 id 10 300 180 fsC4 INCLUDE_EXT_DEFAULT INCLUDE_NAMES_DEFAULT
    EXCLUDE_DIRS_DEFAULT true stC4 5 (by decide) (by decide),
   c4_theorem.2 id 10 300 180 fsC4 INCLUDE_EXT_DEFAULT INCLUDE_NAMES_DEFAULT
    EXCLUDE_DIRS_DEFAULT "a.tf" ⟨1, "X"⟩
    [Act.ev "a.tf" false 0, Act.tick 3, Act.ev "a.tf" false 4, Act.tick 6]
    [Act.tick 15] 4 14
    (by decide) rfl (by decide) rfl rfl rfl rfl (by decide)⟩

/-! ## C6: fingerprint determinism and sensitivity -/

theorem sep_split : ∀ (xs ys u v : List Char), '|' ∉ xs → '|' ∉ ys →
    xs ++ '|' :: u = ys ++ '|' :: v → xs = ys ∧ u = v := by
  intro xs
  induction xs with
  | nil =>
    intro ys u v _ hy he
    cases ys with
    | nil =>
      injection he with _ h2
      exact ⟨rfl, h2⟩
    | cons y ys' =>
      injection he with h1 h2
      exact absurd (h1 ▸ List.mem_cons_self y ys') (fun hc => hy (h1 ▸ hc))
  | cons x xs' ih =>
    intro ys u v hx hy he
    cases ys with
    | nil =>
      injection he with h1 h2
      exact absurd (h1 ▸ List.mem_cons_self x xs') (fun hc => hx (h1 ▸ hc))
    | cons y ys' =>
      injection he with h1 h2
      obtain ⟨ha, hb⟩ := ih ys' u v (fun hc => hx (List.mem_cons_of_mem _ hc))
        (fun hc => hy (List.mem_cons_of_mem _ hc)) h2
      exact ⟨by rw [h1, ha], hb⟩

theorem pipeFree_not_in_append (a b c : String) (ha : pipeFree a)
    (he : a = b ++ "|" ++ c) : False := by
  apply ha
  rw [he, String.data_append, String.data_append]
  have : ('|' : Char) ∈ ("|" : String).data := by decide
  exact List.mem_append.mpr (Or.inl (List.mem_append.mpr (Or.inr this)))

theorem data_sep_shape (a j : String) :
    (a ++ "|" ++ j).data = a.data ++ '|' :: j.data := by
  rw [String.data_append, String.data_append, List.append_assoc]
  rfl

theorem joinSep_pipe_inj : ∀ (L1 L2 : List String), L1 ≠ [] → L2 ≠ [] →
    (∀ s ∈ L1, pipeFree s) → (∀ s ∈ L2, pipeFree s) →
    joinSep "|" L1 = joinSep "|" L2 → L1 = L2 := by
  intro L1
  induction L1 with
  | nil => intro L2 h1 _ _ _ _; exact absurd rfl h1
  | cons a r1 ih =>
    intro L2 _ hn2 hp1 hp2 he
    cases L2 with
    | nil => exact absurd rfl hn2
    | cons b r2 =>
      cases hr1 : r1 with
      | nil =>
        cases hr2 : r2 with
        | nil =>
          subst hr1; subst hr2
          simp only [joinSep] at he
          rw [he]
        | cons c rc =>
          subst hr1; subst hr2
          rw [show joinSep "|" [a] = a from rfl,
            joinSep_cons "|" b (by simp)] at he
          exact absurd he (fun hc =>
            pipeFree_not_in_append a b (joinSep "|" (c :: rc))
              (hp1 a (List.mem_cons_self _ _)) hc)
      | cons c rc =>
        cases hr2 : r2 with
        | nil =>
          subst hr1; subst hr2
          rw [show joinSep "|" [b] = b from rfl,
            joinSep_cons "|" a (by simp)] at he
          exact absurd he.symm (fun hc =>
            pipeFree_not_in_append b a (joinSep "|" (c :: rc))
              (hp2 b (List.mem_cons_self _ _)) hc)
        | cons d rd =>
          subst hr1; subst hr2
          rw [joinSep_cons "|" a (by simp), joinSep_cons "|" b (by simp)] at he
          have hdata := congrArg String.data he
          rw [data_sep_shape, data_sep_shape] at hdata
          obtain ⟨hab, hjj⟩ := sep_split a.data b.data _ _
            (hp1 a (List.mem_cons_self _ _)) (hp2 b (List.mem_cons_self _ _)) hdata
          have hab' : a = b := String.toList_inj.mp hab
          have hjj' : joinSep "|" (c :: rc) = joinSep "|" (d :: rd) :=
            String.toList_inj.mp hjj
          have := ih (d :: rd) (by simp) (by simp)
            (fun s hs => hp1 s (List.mem_cons_of_mem _ hs))
            (fun s hs => hp2 s (List.mem_cons_of_mem _ hs)) hjj'
          rw [hab', this]

theorem joinSep_append_split : ∀ (L M : List String), L ≠ [] → M ≠ [] →
    joinSep "|" (L ++ M) = joinSep "|" L ++ "|" ++ joinSep "|" M := by
  intro L
  induction L with
  | nil => intro M h _; exact absurd rfl h
  | cons a r ih =>
    intro M _ hM
    cases hr : r with
    | nil =>
      subst hr
      simp only [List.cons_append, List.nil_append]
      rw [joinSep_cons "|" a hM]
      rfl
    | cons b rb =>
      subst hr
      rw [List.cons_append, joinSep_cons "|" a (by simp),
        joinSep_cons "|" a (by simp), ih M (by simp) hM]
      simp [String.append_assoc]

theorem joinSep_append_inj : ∀ (l1 l2 M : List String), M ≠ [] →
    (∀ s ∈ l1, pipeFree s) → (∀ s ∈ l2, pipeFree s) →
    joinSep "|" (l1 ++ M) = joinSep "|" (l2 ++ M) → l1 = l2 := by
  intro l1
  induction l1 with
  | nil =>
    intro l2 M hM _ hp2 he
    cases l2 with
    | nil => rfl
    | cons y r2 =>
      rw [List.nil_append, List.cons_append, joinSep_cons "|" y (by simp [hM])] at he
      have hlen := congrArg String.length he
      have hge := length_joinSep_append_ge "|" r2 M hM
      have h1 : ("|" : String).length = 1 := rfl
      simp only [String.length_append, h1] at hlen
      omega
  | cons x r1 ih =>
    intro l2 M hM hp1 hp2 he
    cases l2 with
    | nil =>
      rw [List.nil_append, List.cons_append, joinSep_cons "|" x (by simp [hM])] at he
      have hlen := congrArg String.length he
      have hge := length_joinSep_append_ge "|" r1 M hM
      have h1 : ("|" : String).length = 1 := rfl
      simp only [String.length_append, h1] at hlen
      omega
    | cons y r2 =>
      rw [List.cons_append, List.cons_append, joinSep_cons "|" x (by simp [hM]),
        joinSep_cons "|" y (by simp [hM])] at he
      have hdata := congrArg String.data he
      rw [data_sep_shape, data_sep_shape] at hdata
      obtain ⟨hxy, hjj⟩ := sep_split x.data y.data _ _
        (hp1 x (List.mem_cons_self _ _)) (hp2 y (List.mem_cons_self _ _)) hdata
      have hxy' : x = y := String.toList_inj.mp hxy
      have hr := ih r2 M hM (fun s hs => hp1 s (List.mem_cons_of_mem _ hs))
        (fun s hs => hp2 s (List.mem_cons_of_mem _ hs)) (String.toList_inj.mp hjj)
      rw [hxy', hr]

theorem sortFiles_eq_of_perm (l1 l2 : List FileEntry) (hp : List.Perm l1 l2)
    (hk : l1.Pairwise (fun a b => sortKey a ≠ sortKey b)) :
    sortFiles l1 = sortFiles l2 := by
  haveI htot : IsTotal FileEntry (fun a b => sortKey a ≤ sortKey b) :=
    ⟨fun a b => le_total _ _⟩
  haveI htr : IsTrans FileEntry (fun a b => sortKey a ≤ sortKey b) :=
    ⟨fun a b c hab hbc => le_trans hab hbc⟩
  haveI hanti : IsAntisymm FileEntry (fun a b => sortKey a < sortKey b) :=
    ⟨fun a b h1 h2 => (lt_asymm h1 h2).elim⟩
  have hs1 : (sortFiles l1).Sorted (fun a b => sortKey a ≤ sortKey b) :=
    @List.sorted_insertionSort FileEntry (fun a b => sortKey a ≤ sortKey b)
      (fun a b => strLeDec (sortKey a) (sortKey b)) htot htr l1
  have hs2 : (sortFiles l2).Sorted (fun a b => sortKey a ≤ sortKey b) :=
    @List.sorted_insertionSort FileEntry (fun a b => sortKey a ≤ sortKey b)
      (fun a b => strLeDec (sortKey a) (sortKey b)) htot htr l2
  have hsym : Symmetric (fun a b : FileEntry => sortKey a ≠ sortKey b) :=
    fun a b hab => fun hc => hab hc.symm
  have hk1 : (sortFiles l1).Pairwise (fun a b => sortKey a ≠ sortKey b) :=
    ((sortFiles_perm l1).pairwise_iff (fun hab => hsym hab)).mpr hk
  have hk2 : (sortFiles l2).Pairwise (fun a b => sortKey a ≠ sortKey b) :=
    ((sortFiles_perm l2).pairwise_iff (fun hab => hsym hab)).mpr
      ((hp.pairwise_iff (fun hab => hsym hab)).mp hk)
  have hst1 : (sortFiles l1).Sorted (fun a b => sortKey a < sortKey b) :=
    (hs1.and hk1).imp (fun hab => lt_of_le_of_ne hab.1 hab.2)
  have hst2 : (sortFiles l2).Sorted (fun a b => sortKey a < sortKey b) :=
    (hs2.and hk2).imp (fun hab => lt_of_le_of_ne hab.1 hab.2)
  exact List.eq_of_perm_of_sorted
    ((sortFiles_perm l1).trans (hp.trans (sortFiles_perm l2).symm)) hst1 hst2

theorem str_append_cancel_left (x y z : String) (h : x ++ y = x ++ z) : y = z := by
  have hd := congrArg String.data h
  rw [String.data_append, String.data_append] at hd
  exact String.toList_inj.mp (List.append_cancel_left hd)

theorem str_sep_cancel_left (x j1 j2 : String) (h : x ++ "|" ++ j1 = x ++ "|" ++ j2) :
    j1 = j2 := by
  have hd := congrArg String.data h
  rw [data_sep_shape, data_sep_shape] at hd
  have h2 := List.append_cancel_left hd
  injection h2 with _ h3
  exact String.toList_inj.mp h3

theorem str_sep_cancel_right (x1 x2 j : String) (h : x1 ++ "|" ++ j = x2 ++ "|" ++ j) :
    x1 = x2 := by
  have hd := congrArg String.data h
  rw [data_sep_shape, data_sep_shape] at hd
  exact String.toList_inj.mp (List.append_cancel_right hd)

theorem pipeFree_append (a b : String) (ha : pipeFree a) (hb : pipeFree b) :
    pipeFree (a ++ b) := by
  intro hc
  rw [String.data_append] at hc
  rcases List.mem_append.mp hc with hc | hc
  · exact ha hc
  · exact hb hc

theorem fkey_congr (f g : FileEntry) (hp : f.path = g.path) (hn : f.name = g.name) :
    fkey f = fkey g := by
  unfold fkey
  rw [hp, hn]

theorem batch_fingerprint_seed (h : String → String) (p : Payload) :
    batch_fingerprint h p = h (joinSep "|" (p.repo_id :: p.notify_reason ::
      (sortStrings p.created_paths ++ (sortFiles p.files).map (filePart h)))) := by
  rfl

theorem filePart_pipeFree (h : String → String) (f : FileEntry)
    (hk : pipeFree (fkey f)) (hc : pipeFree (h f.content)) : pipeFree (filePart h f) := by
  unfold filePart
  exact pipeFree_append _ _ (pipeFree_append _ _ hk (by decide)) hc

theorem parts_ne_nil (h : String → String) (files : List FileEntry) (hne : files ≠ []) :
    (sortFiles files).map (filePart h) ≠ [] := by
  intro hc
  rw [List.map_eq_nil_iff] at hc
  have hp := sortFiles_perm files
  rw [hc] at hp
  exact hne hp.nil_eq.symm

theorem perm_toFinset_eq (l1 l2 : List String) (hp : List.Perm l1 l2) :
    l1.toFinset = l2.toFinset := by
  apply Finset.ext
  intro a
  simp only [List.mem_toFinset]
  exact hp.mem_iff

/-- C6 — amended.  (i) The server fingerprint is invariant under any
permutation of the files list PROVIDED the files' case-folded path keys
are pairwise distinct (the sort is stable, so key ties preserve input
order).  For any injective digest it is sensitive to (ii) the repo
identity, (iii) the reason, (iv) the created-paths set — provided the
batch has files and no created path contains the seed separator `'|'` —
and (v) a change to any one file's content, provided file keys and the
digests involved are separator-free. -/
theorem c6_theorem :
    (∀ (h : String → String) (p1 p2 : Payload),
      p1.repo_id = p2.repo_id → p1.notify_reason = p2.notify_reason →
      p1.created_paths = p2.created_paths → List.Perm p1.files p2.files →
      p1.files.Pairwise (fun a b => sortKey a ≠ sortKey b) →
      batch_fingerprint h p1 = batch_fingerprint h p2) ∧
    (∀ (h : String → String), Function.Injective h → ∀ (p1 p2 : Payload),
      p1.notify_reason = p2.notify_reason → p1.created_paths = p2.created_paths →
      p1.files = p2.files → p1.repo_id ≠ p2.repo_id →
      batch_fingerprint h p1 ≠ batch_fingerprint h p2) ∧
    (∀ (h : String → String), Function.Injective h → ∀ (p1 p2 : Payload),
      p1.repo_id = p2.repo_id → p1.created_paths = p2.created_paths →
      p1.files = p2.files → p1.notify_reason ≠ p2.notify_reason →
      batch_fingerprint h p1 ≠ batch_fingerprint h p2) ∧
    (∀ (h : String → String), Function.Injective h → ∀ (p1 p2 : Payload),
      p1.repo_id = p2.repo_id → p1.notify_reason = p2.notify_reason →
      p1.files = p2.files → p1.files ≠ [] →
      (∀ s ∈ p1.created_paths, pipeFree s) → (∀ s ∈ p2.created_paths, pipeFree s) →
      p1.created_paths.toFinset ≠ p2.created_paths.toFinset →
      batch_fingerprint h p1 ≠ batch_fingerprint h p2) ∧
    (∀ (h : String → String), Function.Injective h →
      ∀ (p1 p2 : Payload) (A B : List FileEntry) (f f' : FileEntry),
      p1.repo_id = p2.repo_id → p1.notify_reason = p2.notify_reason →
      p1.created_paths = p2.created_paths →
      p1.files = A ++ f :: B → p2.files = A ++ f' :: B →
      f.path = f'.path → f.name = f'.name → f.content ≠ f'.content →
      (∀ g ∈ p1.files, pipeFree (fkey g)) →
      (∀ g ∈ p1.files, pipeFree (h g.content)) →
      (∀ g ∈ p2.files, pipeFree (h g.content)) →
      batch_fingerprint h p1 ≠ batch_fingerprint h p2) := by
  refine ⟨?_, ?_, ?_, ?_, ?_⟩
  · intro h p1 p2 hrid hreason hcp hperm hkeys
    rw [batch_fingerprint_seed, batch_fingerprint_seed, hrid, hreason, hcp,
      sortFiles_eq_of_perm p1.files p2.files hperm hkeys]
  · intro h hinj p1 p2 hreason hcp hfiles hrid he
    rw [batch_fingerprint_seed, batch_fingerprint_seed] at he
    have hseed := hinj he
    rw [hreason, hcp, hfiles] at hseed
    rw [joinSep_cons "|" p1.repo_id (by simp), joinSep_cons "|" p2.repo_id (by simp)]
      at hseed
    exact hrid (str_sep_cancel_right _ _ _ hseed)
  · intro h hinj p1 p2 hrid hcp hfiles hreason he
    rw [batch_fingerprint_seed, batch_fingerprint_seed] at he
    have hseed := hinj he
    rw [hrid, hcp, hfiles] at hseed
    rw [joinSep_cons "|" p2.repo_id (by simp), joinSep_cons "|" p2.repo_id (by simp)]
      at hseed
    have h2 := str_sep_cancel_left _ _ _ hseed
    cases hR : sortStrings p2.created_paths ++ (sortFiles p2.files).map (filePart h) with
    | nil =>
      rw [hR] at h2
      exact hreason h2
    | cons a r =>
      rw [hR, joinSep_cons "|" p1.notify_reason (by simp),
        joinSep_cons "|" p2.notify_reason (by simp)] at h2
      exact hreason (str_sep_cancel_right _ _ _ h2)
  · intro h hinj p1 p2 hrid hreason hfiles hfne hpf1 hpf2 hset he
    rw [batch_fingerprint_seed, batch_fingerprint_seed] at he
    have hseed := hinj he
    rw [hrid, hreason, hfiles] at hseed
    have hpne : (sortFiles p2.files).map (filePart h) ≠ [] :=
      parts_ne_nil h p2.files (hfiles ▸ hfne)
    rw [joinSep_cons "|" p2.repo_id (by simp), joinSep_cons "|" p2.repo_id (by simp)]
      at hseed
    have h2 := str_sep_cancel_left _ _ _ hseed
    rw [joinSep_cons "|" p2.notify_reason (by simp [hpne]),
      joinSep_cons "|" p2.notify_reason (by simp [hpne])] at h2
    have h3 := str_sep_cancel_left _ _ _ h2
    have hsc := joinSep_append_inj (sortStrings p1.created_paths)
      (sortStrings p2.created_paths) ((sortFiles p2.files).map (filePart h)) hpne
      (fun s hs => hpf1 s ((sortStrings_perm p1.created_paths).mem_iff.mp hs))
      (fun s hs => hpf2 s ((sortStrings_perm p2.created_paths).mem_iff.mp hs)) h3
    apply hset
    rw [← perm_toFinset_eq _ _ (sortStrings_perm p1.created_paths),
      ← perm_toFinset_eq _ _ (sortStrings_perm p2.created_paths), hsc]
  · intro h hinj p1 p2 A B f f' hrid hreason hcp hf1 hf2 hpath hname hcont hkeys hd1 hd2 he
    rw [batch_fingerprint_seed, batch_fingerprint_seed] at he
    have hseed := hinj he
    rw [hrid, hreason, hcp] at hseed
    have hne1 : p1.files ≠ [] := by
      rw [hf1]
      simp
    have hne2 : p2.files ≠ [] := by
      rw [hf2]
      simp
    have hpne1 : (sortFiles p1.files).map (filePart h) ≠ [] := parts_ne_nil h p1.files hne1
    have hpne2 : (sortFiles p2.files).map (filePart h) ≠ [] := parts_ne_nil h p2.files hne2
    have hseed2 : joinSep "|" ((p2.repo_id :: p2.notify_reason ::
        sortStrings p2.created_paths) ++ (sortFiles p1.files).map (filePart h)) =
        joinSep "|" ((p2.repo_id :: p2.notify_reason ::
        sortStrings p2.created_paths) ++ (sortFiles p2.files).map (filePart h)) := hseed
    rw [joinSep_append_split (p2.repo_id :: p2.notify_reason ::
        sortStrings p2.created_paths) _ (by simp) hpne1,
      joinSep_append_split (p2.repo_id :: p2.notify_reason ::
        sortStrings p2.created_paths) _ (by simp) hpne2] at hseed2
    have hmemf : f ∈ p1.files := by
      rw [hf1]
      exact List.mem_append.mpr (Or.inr (List.mem_cons_self _ _))
    have hkeys2 : ∀ g ∈ p2.files, pipeFree (fkey g) := by
      intro g hg
      rw [hf2] at hg
      rcases List.mem_append.mp hg with hg | hg
      · apply hkeys g
        rw [hf1]
        exact List.mem_append.mpr (Or.inl hg)
      · rcases List.mem_cons.mp hg with hg | hg
        · rw [hg, ← fkey_congr f f' hpath hname]
          exact hkeys f hmemf
        · apply hkeys g
          rw [hf1]
          exact List.mem_append.mpr (Or.inr (List.mem_cons_of_mem _ hg))
    have hparts := joinSep_pipe_inj _ _ hpne1 hpne2
      (fun s hs => by
        obtain ⟨g, hg, hgs⟩ := List.mem_map.mp hs
        rw [← hgs]
        exact filePart_pipeFree h g
          (hkeys g ((sortFiles_perm p1.files).mem_iff.mp hg))
          (hd1 g ((sortFiles_perm p1.files).mem_iff.mp hg)))
      (fun s hs => by
        obtain ⟨g, hg, hgs⟩ := List.mem_map.mp hs
        rw [← hgs]
        exact filePart_pipeFree h g
          (hkeys2 g ((sortFiles_perm p2.files).mem_iff.mp hg))
          (hd2 g ((sortFiles_perm p2.files).mem_iff.mp hg)))
      (str_sep_cancel_left _ _ _ hseed2)
    have hm1 : ((sortFiles p1.files).map (filePart h) : Multiset String) =
        (p1.files.map (filePart h) : Multiset String) :=
      Multiset.coe_eq_coe.mpr ((sortFiles_perm p1.files).map (filePart h))
    have hm2 : ((sortFiles p2.files).map (filePart h) : Multiset String) =
        (p2.files.map (filePart h) : Multiset String) :=
      Multiset.coe_eq_coe.mpr ((sortFiles_perm p2.files).map (filePart h))
    have hmm : (p1.files.map (filePart h) : Multiset String) =
        (p2.files.map (filePart h) : Multiset String) := by
      rw [← hm1, ← hm2, hparts]
    rw [hf1, hf2, List.map_append, List.map_append, List.map_cons, List.map_cons] at hmm
    have hmm2 : ((A.map (filePart h) : Multiset String) +
        (filePart h f ::ₘ (B.map (filePart h) : Multiset String))) =
        ((A.map (filePart h) : Multiset String) +
        (filePart h f' ::ₘ (B.map (filePart h) : Multiset String))) := by
      simpa using hmm
    have hmm3 := add_left_cancel hmm2
    rw [← Multiset.singleton_add, ← Multiset.singleton_add] at hmm3
    have hxy : ({filePart h f} : Multiset String) = {filePart h f'} :=
      add_right_cancel hmm3
    have hpp : filePart h f = filePart h f' := by
      simpa using hxy
    unfold filePart at hpp
    rw [← fkey_congr f f' hpath hname] at hpp
    have hcanc := str_append_cancel_left (fkey f ++ ":") (h f.content) (h f'.content) hpp
    exact hcont (hinj hcanc)

/-- C6 — counterexample.  Both universal sub-claims fail as stated:
(a) the fingerprint is NOT invariant under permutation when two files
share a case-folded path key (`"A"`/`"a"`: the stable sort preserves
their input order, so the seeds differ); (b) two payloads whose
created-paths SETS differ (`["x|y"]` vs `["x","y"]`) produce THE SAME
fingerprint, because `"|".join` is ambiguous when a path contains the
separator. -/
theorem c6_counterexample :
    (List.Perm pC6a.files pC6b.files ∧
      batch_fingerprint id pC6a ≠ batch_fingerprint id pC6b) ∧
    (pC6c.created_paths.toFinset ≠ pC6d.created_paths.toFinset ∧
      batch_fingerprint id pC6c = batch_fingerprint id pC6d) := by
  refine ⟨⟨?_, ?_⟩, ?_, ?_⟩ <;> decide

/-- C6 — witness for `c6_theorem`: all five conjuncts applied at
concrete payloads with the identity digest (which is injective, and
whose outputs on the concrete contents are separator-free). -/
theorem c6_witness :
    batch_fingerprint id pC6e = batch_fingerprint id pC6f ∧
    batch_fingerprint id { pC6e with repo_id := "r1" } ≠
      batch_fingerprint id { pC6e with repo_id := "r2" } ∧
    batch_fingerprint id { pC6e with notify_reason := "created" } ≠
      batch_fingerprint id { pC6e with notify_reason := "initial" } ∧
    batch_fingerprint id { pC6e with created_paths := ["x"] } ≠
      batch_fingerprint id { pC6e with created_paths := ["y"] } ∧
    batch_fingerprint id { pC6e with files := [⟨"a.tf", "a.tf", "1"⟩] } ≠
      batch_fingerprint id { pC6e with files := [⟨"a.tf", "a.tf", "2"⟩] } :=
  ⟨c6_theorem.1 id pC6e pC6f rfl rfl rfl (by decide) (by decide),
   c6_theorem.2.1 id (fun a b hab => hab) _ _ rfl rfl rfl (by decide),
   c6_theorem.2.2.1 id (fun a b hab => hab) _ _ rfl rfl rfl (by decide),
   c6_theorem.2.2.2.1 id (fun a b hab => hab) _ _ rfl rfl rfl (by decide)
     (by decide) (by decide) (by decide),
   c6_theorem.2.2.2.2 id (fun a b hab => hab) _ _ [] []
     ⟨"a.tf", "a.tf", "1"⟩ ⟨"a.tf", "a.tf", "2"⟩ rfl rfl rfl rfl rfl rfl rfl
     (by decide) (by decide) (by decide) (by decide)⟩
